import Mathlib

/-!
Verification development for the game-zero server room simulation
(packages/server/src/Room.ts, final revision, together with
packages/shared/src/constants.ts and packages/shared/src/types.ts).

The TypeScript code is embedded shallowly:
* JavaScript numbers are modelled as rationals (exact arithmetic);
* Math.cos / Math.sin / Math.sqrt / Math.atan2 are abstract numeric
  oracles collected in the structure MathO (the simulation logic the
  claims are about never depends on their values);
* Math.random() is modelled as an explicit stream of rationals
  (rnd : Nat -> Rat) indexed by a draw counter stored in the room state,
  one index per call, in source order;
* the JS Map collections are modelled as lists in insertion order
  (Map iteration order), with in-place value update and append-on-new-key,
  exactly the operations the source performs;
* in-place mutation of an entity held in a Map becomes an update of the
  corresponding list entry keyed by its id (Map keys are the entity ids,
  so the entry is unique).
-/

namespace GameZero

/-! ### Constants (packages/shared/src/constants.ts, GAME_CONFIG) -/

def WORLD_WIDTH : ℚ := 1920
def WORLD_HEIGHT : ℚ := 1080
def TICK_RATE : ℚ := 60
def SHIP_RADIUS : ℚ := 8
def SHIP_MAX_SPEED : ℚ := 1200
def SHIP_ACCELERATION : ℚ := 120
def SHIP_ROTATION_SPEED : ℚ := 3
def SHIP_DRAG : ℚ := 995 / 1000
def SHIP_RESPAWN_TIME : ℚ := 3
def SHIP_INVULN_TIME : ℚ := 2
def BULLET_SPEED : ℚ := 345
def BULLET_LIFETIME : ℚ := 12 / 10
def BULLET_RADIUS : ℚ := 3 / 2
def FIRE_COOLDOWN : ℚ := 625 / 1000
def KILL_SCORE : ℚ := 200
def INITIAL_ASTEROIDS : Nat := 0
def MAX_ASTEROIDS : Nat := 0
def ASTEROID_SPAWN_INTERVAL : ℚ := 12

/-- The double-precision value of Math.PI, as an exact rational. -/
def piQ : ℚ := 884279719003555 / 281474976710656

inductive AsteroidSize where
  | large
  | medium
  | small
deriving DecidableEq

/-- GAME_CONFIG.ASTEROID_SIZES radius per size class. -/
def asteroidRadius : AsteroidSize → ℚ
  | .large => 25
  | .medium => 15
  | .small => 8

/-- GAME_CONFIG.ASTEROID_SIZES score per size class. -/
def asteroidScore : AsteroidSize → ℚ
  | .large => 20
  | .medium => 50
  | .small => 100

/-- GAME_CONFIG.ASTEROID_SIZES speed per size class. -/
def asteroidSpeed : AsteroidSize → ℚ
  | .large => 60
  | .medium => 90
  | .small => 130

inductive ExplosionSize where
  | small
  | medium
  | large
deriving DecidableEq

inductive GameMode where
  | ffa
  | asteroidHunters
  | knockout
deriving DecidableEq

inductive Phase where
  | lobby
  | playing
  | gameover
deriving DecidableEq

/-! ### Entity model (packages/shared/src/types.ts) -/

structure Vec2 where
  x : ℚ
  y : ℚ
deriving DecidableEq

structure Ship where
  id : String
  playerId : String
  position : Vec2
  velocity : Vec2
  rotation : ℚ
  isThrusting : Bool
  color : String
  name : String
  score : ℚ
  isAlive : Bool
  respawnTimer : ℚ
  fireCooldown : ℚ
  invulnTimer : ℚ
deriving DecidableEq

structure Bullet where
  id : String
  ownerId : String
  ownerColor : String
  position : Vec2
  velocity : Vec2
  lifetime : ℚ
deriving DecidableEq

structure Asteroid where
  id : String
  position : Vec2
  velocity : Vec2
  rotation : ℚ
  angularVelocity : ℚ
  size : AsteroidSize
  radius : ℚ
deriving DecidableEq

structure Explosion where
  id : String
  position : Vec2
  color : String
  size : ExplosionSize
  lifetime : ℚ
  maxLifetime : ℚ
deriving DecidableEq

/-- InternalStats of Room.ts; the killedBy / killed Maps become
association lists in insertion order. -/
structure Stats where
  kills : Nat
  deaths : Nat
  shotsFired : Nat
  shotsHit : Nat
  asteroidsDestroyed : Nat
  killedBy : List (String × Nat)
  killed : List (String × Nat)
deriving DecidableEq

/-- Per-bot scratch state kept in Room.aiState. -/
structure AiState where
  targetId : Option String
  wanderAngle : ℚ
  nextThinkTime : ℚ
deriving DecidableEq

/-- PlayerInput of packages/shared/src/types.ts (sequenceNumber and
timestamp are carried but never read by Room). -/
structure PlayerInput where
  sequenceNumber : Nat
  rotation : ℚ
  thrust : Bool
  fire : Bool
  timestamp : Nat
deriving DecidableEq

/-- The Room fields the simulation methods read or write.  Maps are
lists in insertion order; randIdx is the explicit cursor into the
random stream. -/
structure RoomState where
  code : String
  ships : List Ship
  asteroids : List Asteroid
  bullets : List Bullet
  explosions : List Explosion
  phase : Phase
  tick : Nat
  gameTimer : ℚ
  gameMode : GameMode
  stats : List (String × Stats)
  asteroidSpawnTimer : ℚ
  idCounter : Nat
  aiShipIds : List String
  aiState : List (String × AiState)
  randIdx : Nat
deriving DecidableEq

/-- Abstract numeric oracles for the Math library calls whose exact
values the claims never depend on. -/
structure MathO where
  cos : ℚ → ℚ
  sin : ℚ → ℚ
  sqrt : ℚ → ℚ
  atan2 : ℚ → ℚ → ℚ

/-! ### Small helpers over the Map-as-list representation -/

/-- Map.get on the ships Map (keys are ship ids). -/
def findShip (l : List Ship) (sid : String) : Option Ship :=
  l.find? (fun s => s.id == sid)

/-- In-place update of the Map entry whose key is sid (mutating the
entity object held in the Map). -/
def mapShip (sid : String) (f : Ship → Ship) (l : List Ship) : List Ship :=
  l.map (fun s => if s.id == sid then f s else s)

/-- Map.get on the stats Map. -/
def statsFind (l : List (String × Stats)) (pid : String) : Option Stats :=
  (l.find? (fun e => e.1 == pid)).map (fun e => e.2)

/-- In-place update of a stats entry (the source always guards with
an existence check, so a missing key is left alone). -/
def mapStats (pid : String) (f : Stats → Stats) (l : List (String × Stats)) :
    List (String × Stats) := l.map (fun e => if e.1 == pid then (e.1, f e.2) else e)

/-- In-place update of an aiState entry. -/
def mapAi (pid : String) (f : AiState → AiState) (l : List (String × AiState)) :
    List (String × AiState) := l.map (fun e => if e.1 == pid then (e.1, f e.2) else e)

/-- The killedBy / killed tally maps: get-or-zero then set, i.e.
update in place when the key exists, append otherwise. -/
def bumpCount (l : List (String × Nat)) (k : String) : List (String × Nat) :=
  match l.find? (fun e => e.1 == k) with
  | some _ => l.map (fun e => if e.1 == k then (e.1, e.2 + 1) else e)
  | none => l ++ [(k, 1)]

/-- One Math.random() draw: the value at the current cursor, advancing
the cursor. -/
def draw (rnd : Nat → ℚ) (st : RoomState) : ℚ × RoomState :=
  (rnd st.randIdx, { st with randIdx := st.randIdx + 1 })

/-- Room.generateId: increments idCounter then interpolates it after
the room code. -/
def generateId (st : RoomState) : String × RoomState :=
  (st.code ++ "-" ++ toString (st.idCounter + 1), { st with idCounter := st.idCounter + 1 })

/-! ### Geometry (Room.wrapPosition, Room.circleCollision) -/

/-- Room.wrapPosition: one conditional world-size shift per side per
axis, applied in source order. -/
def wrapPosition (pos : Vec2) : Vec2 :=
  let x1 := if pos.x < 0 then pos.x + WORLD_WIDTH else pos.x
  let x2 := if x1 > WORLD_WIDTH then x1 - WORLD_WIDTH else x1
  let y1 := if pos.y < 0 then pos.y + WORLD_HEIGHT else pos.y
  let y2 := if y1 > WORLD_HEIGHT then y1 - WORLD_HEIGHT else y1
  ⟨x2, y2⟩

/-- Room.circleCollision: plain Euclidean circle overlap on the direct
coordinate deltas, inclusive at the exact radius sum. -/
def circleCollision (pos1 : Vec2) (r1 : ℚ) (pos2 : Vec2) (r2 : ℚ) : Bool :=
  let dx := pos2.x - pos1.x
  let dy := pos2.y - pos1.y
  let distSq := dx * dx + dy * dy
  let radiusSum := r1 + r2
  decide (distSq ≤ radiusSum * radiusSum)

/-- Modelled from the spec: the collision test section 4.5 describes,
namely circle-circle overlap under toroidal distance, taking on each
axis the shorter of the direct delta and the wrap-around delta.  This
definition follows the specification words and exists only to be
compared with circleCollision, which is what the code implements. -/
def specToroidalCollision (pos1 : Vec2) (r1 : ℚ) (pos2 : Vec2) (r2 : ℚ) : Bool :=
  let ax := |pos2.x - pos1.x|
  let dx := min ax (WORLD_WIDTH - ax)
  let ay := |pos2.y - pos1.y|
  let dy := min ay (WORLD_HEIGHT - ay)
  let radiusSum := r1 + r2
  decide (dx * dx + dy * dy ≤ radiusSum * radiusSum)

/-! ### Spawning and firing -/

/-- Room.spawnExplosion: lifetime by size class, id from generateId. -/
def spawnExplosion (st : RoomState) (position : Vec2) (color : String)
    (size : ExplosionSize) : RoomState :=
  let lifetime : ℚ :=
    match size with
    | .small => 3 / 10
    | .medium => 5 / 10
    | .large => 7 / 10
  let (eid, st) := generateId st
  { st with explosions := (st.explosions ++
      [{ id := eid, position := position, color := color, size := size,
         lifetime := lifetime, maxLifetime := lifetime }]) }

/-- Room.fireBullet: bullet spawned ahead of the ship along its heading,
velocity along the heading plus half the ship velocity; also counts a
shot fired for the owner when a stats entry exists. -/
def fireBullet (mo : MathO) (st : RoomState) (ship : Ship) : RoomState :=
  let (bid, st) := generateId st
  let b : Bullet :=
    { id := bid, ownerId := ship.id, ownerColor := ship.color,
      position := ⟨ship.position.x + mo.cos ship.rotation * (SHIP_RADIUS + 10),
                   ship.position.y + mo.sin ship.rotation * (SHIP_RADIUS + 10)⟩,
      velocity := ⟨mo.cos ship.rotation * BULLET_SPEED + ship.velocity.x * (1 / 2),
                   mo.sin ship.rotation * BULLET_SPEED + ship.velocity.y * (1 / 2)⟩,
      lifetime := BULLET_LIFETIME }
  { st with bullets := st.bullets ++ [b],
            stats := mapStats ship.id (fun x => { x with shotsFired := x.shotsFired + 1 }) st.stats }

/-- Room.spawnAsteroid.  Draw order follows the source: the heading
angle first, then (when no position is supplied) the edge selector and
the coordinate along that edge, then the two speed factors, the
rotation and the angular velocity. -/
def spawnAsteroid (mo : MathO) (rnd : Nat → ℚ) (st : RoomState)
    (size : AsteroidSize) (position : Option Vec2) : RoomState :=
  let maxA : Nat := if st.gameMode = GameMode.asteroidHunters then 15 else MAX_ASTEROIDS
  if st.asteroids.length ≥ maxA then st
  else
    let (r, st) := draw rnd st
    let angle := r * piQ * 2
    let (pos, st) :=
      match position with
      | some p => (p, st)
      | none =>
        let (re, st) := draw rnd st
        let edge : ℤ := ⌊re * 4⌋
        let (rc, st) := draw rnd st
        if edge = 0 then ((⟨rc * WORLD_WIDTH, -50⟩ : Vec2), st)
        else if edge = 1 then ((⟨WORLD_WIDTH + 50, rc * WORLD_HEIGHT⟩ : Vec2), st)
        else if edge = 2 then ((⟨rc * WORLD_WIDTH, WORLD_HEIGHT + 50⟩ : Vec2), st)
        else ((⟨-50, rc * WORLD_HEIGHT⟩ : Vec2), st)
    let (aid, st) := generateId st
    let (rvx, st) := draw rnd st
    let (rvy, st) := draw rnd st
    let (rrot, st) := draw rnd st
    let (rav, st) := draw rnd st
    let a : Asteroid :=
      { id := aid, position := pos,
        velocity := ⟨mo.cos angle * asteroidSpeed size * (1 / 2 + rvx * (1 / 2)),
                     mo.sin angle * asteroidSpeed size * (1 / 2 + rvy * (1 / 2))⟩,
        rotation := rrot * piQ * 2,
        angularVelocity := (rav - 1 / 2) * 2,
        size := size, radius := asteroidRadius size }
    { st with asteroids := st.asteroids ++ [a] }

/-- Room.splitAsteroid: credit the owner's score and stats, spawn a
cosmetic explosion, then spawn the two children (none for small). -/
def splitAsteroid (mo : MathO) (rnd : Nat → ℚ) (st : RoomState)
    (asteroid : Asteroid) (bulletOwnerId : String) : RoomState :=
  let st := { st with ships := (mapShip bulletOwnerId
      (fun s => { s with score := s.score + asteroidScore asteroid.size }) st.ships) }
  let st := { st with stats := (mapStats bulletOwnerId
      (fun x => { x with asteroidsDestroyed := x.asteroidsDestroyed + 1,
                         shotsHit := x.shotsHit + 1 }) st.stats) }
  let explosionSize : ExplosionSize :=
    match asteroid.size with
    | .large => .large
    | .medium => .medium
    | .small => .small
  let st := spawnExplosion st asteroid.position "#888888" explosionSize
  match asteroid.size with
  | .large =>
    let st := spawnAsteroid mo rnd st .medium (some asteroid.position)
    spawnAsteroid mo rnd st .medium (some asteroid.position)
  | .medium =>
    let st := spawnAsteroid mo rnd st .small (some asteroid.position)
    spawnAsteroid mo rnd st .small (some asteroid.position)
  | .small => st

/-! ### Input (Room.applyInput) -/

/-- Room.applyInput.  No-op when the ship is missing or dead; otherwise
accumulates rotation rate, records the thrust intent, and — when fire
is requested, the cooldown has elapsed and the ship is not
invulnerable — fires a bullet and resets the cooldown.  The source
mutates the one ship object held in the Map; here the same net state
is produced by updating the entry keyed by the ship id. -/
def applyInput (mo : MathO) (st : RoomState) (playerId : String)
    (input : PlayerInput) : RoomState :=
  match findShip st.ships playerId with
  | none => st
  | some ship =>
    if ship.isAlive then
      let ship1 := { ship with
        rotation := ship.rotation + input.rotation * SHIP_ROTATION_SPEED * (1 / TICK_RATE),
        isThrusting := input.thrust }
      if input.fire = true ∧ ship1.fireCooldown ≤ 0 ∧ ship1.invulnTimer ≤ 0 then
        let st1 := fireBullet mo st ship1
        { st1 with ships := (mapShip playerId
            (fun _ => { ship1 with fireCooldown := FIRE_COOLDOWN }) st1.ships) }
      else
        { st with ships := mapShip playerId (fun _ => ship1) st.ships }
    else st

/-! ### Killing and respawning -/

/-- Room.killShip: victim stats (deaths, killedBy tally), then — when a
killer other than the victim is attributed — the killer's score bonus
and stats (kills, killed tally), then the explosion, then the victim's
ship is marked dead with its respawn countdown started and velocity
zeroed. -/
def killShip (st : RoomState) (ship : Ship) (killerId : Option String) : RoomState :=
  let st := { st with stats := (mapStats ship.id (fun x =>
      let x := { x with deaths := x.deaths + 1 }
      match killerId with
      | some kid => if kid ≠ ship.id then { x with killedBy := bumpCount x.killedBy kid } else x
      | none => x) st.stats) }
  let st :=
    match killerId with
    | some kid =>
      if kid ≠ ship.id then
        let st := { st with ships := (mapShip kid
            (fun k => { k with score := k.score + 50 }) st.ships) }
        { st with stats := (mapStats kid (fun x =>
            { x with kills := x.kills + 1, killed := bumpCount x.killed ship.id }) st.stats) }
      else st
    | none => st
  let st := spawnExplosion st ship.position ship.color .medium
  { st with ships := (mapShip ship.id (fun s =>
      { s with isAlive := false, respawnTimer := SHIP_RESPAWN_TIME,
               velocity := ⟨0, 0⟩ }) st.ships) }

/-- Room.respawnShip as it acts on one ship (no-op in knockout mode);
returns the ship together with the advanced random cursor (draws:
position x, position y, rotation). -/
def respawnShipF (rnd : Nat → ℚ) (gm : GameMode) (s : Ship) (ri : Nat) : Ship × Nat :=
  if gm = GameMode.knockout then (s, ri)
  else
    ({ s with
        position := ⟨150 + rnd ri * (WORLD_WIDTH - 150 * 2),
                     150 + rnd (ri + 1) * (WORLD_HEIGHT - 150 * 2)⟩,
        velocity := ⟨0, 0⟩,
        rotation := rnd (ri + 2) * piQ * 2,
        isAlive := true,
        respawnTimer := 0,
        invulnTimer := SHIP_INVULN_TIME }, ri + 3)

/-! ### Collision resolution (Room.checkCollisions) -/

/-- Bullet × Asteroid pass: per not-yet-consumed bullet, the first
overlapping asteroid; returns the (bullet, asteroid) hits in pass
order, threading the consumed-bullet list exactly as bulletsToRemove
is threaded in the source. -/
def bulletAsteroidPass (asteroids : List Asteroid) :
    List Bullet → List String → List (Bullet × Asteroid)
  | [], _ => []
  | b :: rest, consumed =>
    if consumed.contains b.id then bulletAsteroidPass asteroids rest consumed
    else
      match asteroids.find? (fun a =>
          circleCollision b.position BULLET_RADIUS a.position a.radius) with
      | some a => (b, a) :: bulletAsteroidPass asteroids rest (consumed ++ [b.id])
      | none => bulletAsteroidPass asteroids rest consumed

/-- Bullet × Ship pass: per not-yet-consumed bullet, the first
overlapping living, non-invulnerable ship other than the owner. -/
def bulletShipPass (ships : List Ship) :
    List Bullet → List String → List (Bullet × Ship)
  | [], _ => []
  | b :: rest, consumed =>
    if consumed.contains b.id then bulletShipPass ships rest consumed
    else
      match ships.find? (fun s =>
          !(s.id == b.ownerId) && s.isAlive && !(decide (s.invulnTimer > 0)) &&
          circleCollision b.position BULLET_RADIUS s.position SHIP_RADIUS) with
      | some s => (b, s) :: bulletShipPass ships rest (consumed ++ [b.id])
      | none => bulletShipPass ships rest consumed

/-- Ship × Asteroid pass: a living, non-invulnerable ship overlapping
any asteroid is scheduled for an unattributed kill (once — the source
breaks out of the asteroid loop). -/
def shipAsteroidPass (asteroids : List Asteroid) : List Ship → List String
  | [] => []
  | s :: rest =>
    if s.isAlive && !(decide (s.invulnTimer > 0)) then
      if asteroids.any (fun a => circleCollision s.position SHIP_RADIUS a.position a.radius)
      then s.id :: shipAsteroidPass asteroids rest
      else shipAsteroidPass asteroids rest
    else shipAsteroidPass asteroids rest

/-- Ship × Ship pass over ordered pairs (i < j in Map order): each
overlapping pair of living, non-invulnerable ships schedules both
ships, in source push order. -/
def shipShipPass : List Ship → List String
  | [] => []
  | s1 :: rest =>
    (if s1.isAlive && !(decide (s1.invulnTimer > 0)) then
      (rest.filter (fun s2 => s2.isAlive && !(decide (s2.invulnTimer > 0)) &&
          circleCollision s1.position SHIP_RADIUS s2.position SHIP_RADIUS)).flatMap
        (fun s2 => [s1.id, s2.id])
    else []) ++ shipShipPass rest

/-- The shooter shot-hit counts recorded during the Bullet × Ship pass
(the source increments them inline while scanning; the stats Map is
read by nothing else inside checkCollisions, so recording them once
after the scan yields the identical state). -/
def recordShotsHit (hits : List (Bullet × Ship)) (st : RoomState) : RoomState :=
  { st with stats := (hits.foldl (fun acc e =>
      mapStats e.1.ownerId (fun x => { x with shotsHit := x.shotsHit + 1 }) acc) st.stats) }

/-- Kill application loop: dedupe by ship id, skip ships already dead,
kill the rest in schedule order. -/
def killsGo : List (String × Option String) → List String → RoomState → RoomState
  | [], _, st => st
  | (sid, k) :: rest, killed, st =>
    match findShip st.ships sid with
    | none => killsGo rest killed st
    | some s =>
      if killed.contains sid || !s.isAlive then killsGo rest killed st
      else killsGo rest (killed ++ [sid]) (killShip st s k)

/-- The Bullet x Asteroid hits of this tick's resolution, in pass
order (bulletsToRemove starts empty). -/
def collisionHitsA (st : RoomState) : List (Bullet × Asteroid) :=
  bulletAsteroidPass st.asteroids st.bullets []

/-- The Bullet x Ship hits of this tick's resolution; bullets already
consumed by the asteroid pass are skipped via the shared
bulletsToRemove list. -/
def collisionHitsS (st : RoomState) : List (Bullet × Ship) :=
  bulletShipPass st.ships st.bullets ((collisionHitsA st).map (fun e => e.1.id))

/-- The shipsToKill schedule of this tick, in source push order:
bullet kills attributed to the bullet owner, then environmental
asteroid kills, then the mutually-destructive ram kills. -/
def collisionKillList (st : RoomState) : List (String × Option String) :=
  (collisionHitsS st).map (fun e => (e.2.id, some e.1.ownerId)) ++
  (shipAsteroidPass st.asteroids st.ships).map (fun i => (i, (none : Option String))) ++
  (shipShipPass st.ships).map (fun i => (i, (none : Option String)))

/-- Room.checkCollisions: the four passes over the pre-collision entity
set, then bullet/asteroid removals, then deduplicated kills, then
asteroid splits. -/
def checkCollisions (mo : MathO) (rnd : Nat → ℚ) (st : RoomState) : RoomState :=
  let hitsA := collisionHitsA st
  let hitsS := collisionHitsS st
  let bulletsToRemove := hitsA.map (fun e => e.1.id) ++ hitsS.map (fun e => e.1.id)
  let asteroidsToRemove := hitsA.map (fun e => e.2.id)
  let st1 := recordShotsHit hitsS st
  let st2 := { st1 with
    bullets := st1.bullets.filter (fun b => !(bulletsToRemove.contains b.id)),
    asteroids := st1.asteroids.filter (fun a => !(asteroidsToRemove.contains a.id)) }
  let st3 := killsGo (collisionKillList st) [] st2
  hitsA.foldl (fun acc e => splitAsteroid mo rnd acc e.2 e.1.ownerId) st3

/-! ### Per-tick entity integration (Room.update) -/

/-- One ship's slice of the update loop: a dead ship counts down its
respawn timer (skipped entirely in knockout mode) and respawns at zero;
a living ship counts down its fire cooldown and invulnerability timer
(each only while strictly positive), thrusts, is slowed by drag, moves,
and is wrapped.  The random cursor advances only on respawn. -/
def shipStep (mo : MathO) (rnd : Nat → ℚ) (gm : GameMode) (dt : ℚ)
    (s : Ship) (ri : Nat) : Ship × Nat :=
  if s.isAlive then
    let s := if s.fireCooldown > 0 then { s with fireCooldown := s.fireCooldown - dt } else s
    let s := if s.invulnTimer > 0 then { s with invulnTimer := s.invulnTimer - dt } else s
    let s :=
      if s.isThrusting then
        { s with velocity := ⟨s.velocity.x + mo.cos s.rotation * SHIP_ACCELERATION * dt,
                              s.velocity.y + mo.sin s.rotation * SHIP_ACCELERATION * dt⟩ }
      else s
    let s := { s with velocity := ⟨s.velocity.x * SHIP_DRAG, s.velocity.y * SHIP_DRAG⟩ }
    ({ s with position := wrapPosition ⟨s.position.x + s.velocity.x * dt,
                                        s.position.y + s.velocity.y * dt⟩ }, ri)
  else
    if gm = GameMode.knockout then (s, ri)
    else
      let s := { s with respawnTimer := s.respawnTimer - dt }
      if s.respawnTimer ≤ 0 then respawnShipF rnd gm s ri else (s, ri)

/-- The ships loop of Room.update, threading the random cursor in Map
iteration order. -/
def shipsPhase (mo : MathO) (rnd : Nat → ℚ) (gm : GameMode) (dt : ℚ) :
    List Ship → Nat → List Ship × Nat
  | [], ri => ([], ri)
  | s :: rest, ri =>
    let p := shipStep mo rnd gm dt s ri
    let q := shipsPhase mo rnd gm dt rest p.2
    (p.1 :: q.1, q.2)

/-- The bullets loop of Room.update: integrate, wrap, age, then drop
the bullets whose lifetime has run out. -/
def bulletsPhase (dt : ℚ) (bs : List Bullet) : List Bullet :=
  (bs.map (fun b =>
    { b with position := wrapPosition ⟨b.position.x + b.velocity.x * dt,
                                       b.position.y + b.velocity.y * dt⟩,
             lifetime := b.lifetime - dt })).filter (fun b => !(decide (b.lifetime ≤ 0)))

/-- The asteroids block of Room.update, guarded by the mode test of the
source (asteroid_hunters, or a positive static MAX_ASTEROIDS): integrate
and wrap, then the periodic edge spawn under the population cap. -/
def asteroidsPhase (mo : MathO) (rnd : Nat → ℚ) (dt : ℚ) (st : RoomState) : RoomState :=
  if st.gameMode = GameMode.asteroidHunters ∨ MAX_ASTEROIDS > 0 then
    let st := { st with asteroids := (st.asteroids.map (fun a : Asteroid =>
      { a with position := wrapPosition ⟨a.position.x + a.velocity.x * dt,
                                         a.position.y + a.velocity.y * dt⟩,
               rotation := a.rotation + a.angularVelocity * dt })) }
    let spawnInterval : ℚ :=
      if st.gameMode = GameMode.asteroidHunters then 5 else ASTEROID_SPAWN_INTERVAL
    let maxA : Nat := if st.gameMode = GameMode.asteroidHunters then 15 else MAX_ASTEROIDS
    let st := { st with asteroidSpawnTimer := st.asteroidSpawnTimer - dt }
    if st.asteroidSpawnTimer ≤ 0 ∧ st.asteroids.length < maxA then
      let st := spawnAsteroid mo rnd st .large none
      { st with asteroidSpawnTimer := spawnInterval }
    else st
  else st

/-- The explosions loop of Room.update: age and drop the expired. -/
def explosionsPhase (dt : ℚ) (es : List Explosion) : List Explosion :=
  (es.map (fun e => { e with lifetime := e.lifetime - dt })).filter
    (fun e => !(decide (e.lifetime ≤ 0)))

/-! ### Bot controller (Room.updateAI) -/

/-- Math.sign on rationals. -/
def sgnQ (a : ℚ) : ℚ := if a > 0 then 1 else if a < 0 then -1 else 0

/-- The first angle-normalization loop of updateAI:
while the angle exceeds pi, subtract a full turn. -/
def normAngleHigh (a : ℚ) : ℚ :=
  if h : piQ < a then normAngleHigh (a - 2 * piQ) else a
termination_by (⌈(a - piQ) / (2 * piQ)⌉).toNat
decreasing_by
  have hpi : (0 : ℚ) < piQ := by norm_num [piQ]
  have h2 : (0 : ℚ) < 2 * piQ := by linarith
  have key : (a - 2 * piQ - piQ) / (2 * piQ) = (a - piQ) / (2 * piQ) - 1 := by
    field_simp
    ring
  rw [key, Int.ceil_sub_one]
  have hpos : (0 : ℚ) < (a - piQ) / (2 * piQ) := div_pos (by linarith) h2
  have hc : 0 < ⌈(a - piQ) / (2 * piQ)⌉ := Int.ceil_pos.mpr hpos
  omega

/-- The second angle-normalization loop of updateAI:
while the angle is below negative pi, add a full turn. -/
def normAngleLow (a : ℚ) : ℚ :=
  if h : a < -piQ then normAngleLow (a + 2 * piQ) else a
termination_by (⌈(-piQ - a) / (2 * piQ)⌉).toNat
decreasing_by
  have hpi : (0 : ℚ) < piQ := by norm_num [piQ]
  have h2 : (0 : ℚ) < 2 * piQ := by linarith
  have key : (-piQ - (a + 2 * piQ)) / (2 * piQ) = (-piQ - a) / (2 * piQ) - 1 := by
    field_simp
    ring
  rw [key, Int.ceil_sub_one]
  have hpos : (0 : ℚ) < (-piQ - a) / (2 * piQ) := div_pos (by linarith) h2
  have hc : 0 < ⌈(-piQ - a) / (2 * piQ)⌉ := Int.ceil_pos.mpr hpos
  omega

/-- The closest-target scan of updateAI.  The source seeds the scan
with the first candidate and an infinite best distance, so the first
loop iteration always replaces the seed; the scan below starts after
that first iteration, which is equivalent. -/
def pickClosest (ship : Ship) : List Ship → Ship → ℚ → Ship
  | [], best, _ => best
  | t :: rest, best, bestD =>
    let dx := t.position.x - ship.position.x
    let dy := t.position.y - ship.position.y
    let d := dx * dx + dy * dy
    if d < bestD then pickClosest ship rest t d else pickClosest ship rest best bestD

/-- The scratch-state fetch of updateAI: get the bot's AiState,
creating (and storing) a fresh one with a random wander angle when
missing. -/
def aiGetState (rnd : Nat → ℚ) (st : RoomState) (aiId : String) : AiState × RoomState :=
  match (st.aiState.find? (fun e => e.1 == aiId)).map (fun e => e.2) with
  | some a => (a, st)
  | none =>
    let (r, st) := draw rnd st
    let a : AiState := ⟨none, r * piQ * 2, 0⟩
    (a, { st with aiState := st.aiState ++ [(aiId, a)] })

/-- The re-decision block of updateAI, run when the think countdown
has elapsed: re-arm the countdown, then either target the closest
living non-invulnerable other ship or clear the target and perturb
the wander heading. -/
def aiThink (rnd : Nat → ℚ) (st : RoomState) (aiId : String) (ship : Ship)
    (state1 : AiState) : AiState × RoomState :=
  if state1.nextThinkTime ≤ 0 then
    let (r1, st) := draw rnd st
    let s2 := { state1 with nextThinkTime := 1 / 2 + r1 * 1 }
    let (r2, st) := draw rnd st
    if r2 < 6 / 10 then
      let allTargets := st.ships.filter (fun t =>
        !(t.id == aiId) && t.isAlive && decide (t.invulnTimer ≤ 0))
      match allTargets with
      | [] => ({ s2 with targetId := none }, st)
      | t0 :: rest =>
        let dx0 := t0.position.x - ship.position.x
        let dy0 := t0.position.y - ship.position.y
        let closest := pickClosest ship rest t0 (dx0 * dx0 + dy0 * dy0)
        ({ s2 with targetId := some closest.id }, st)
    else
      let (r3, st) := draw rnd st
      ({ s2 with targetId := none,
                 wanderAngle := s2.wanderAngle + (r3 - 1 / 2) * piQ }, st)
  else (state1, st)

/-- The aim block of updateAI: when a live target is held, lead it by
the estimated bullet travel time (scaled by the imperfection factor)
plus random jitter; otherwise keep the wander heading. -/
def aiDesiredAngle (mo : MathO) (rnd : Nat → ℚ) (st : RoomState) (ship : Ship)
    (state2 : AiState) (targetOpt : Option Ship) : ℚ × RoomState :=
  match targetOpt with
  | some t =>
    if t.isAlive then
      let dx := t.position.x - ship.position.x
      let dy := t.position.y - ship.position.y
      let dist := mo.sqrt (dx * dx + dy * dy)
      let bulletTime := dist / BULLET_SPEED
      let px := t.position.x + t.velocity.x * bulletTime * (35 / 100)
      let py := t.position.y + t.velocity.y * bulletTime * (35 / 100)
      let (r, st) := draw rnd st
      (mo.atan2 (py - ship.position.y) (px - ship.position.x) + (r - 1 / 2) * (1 / 2), st)
    else (state2.wanderAngle, st)
  | none => (state2.wanderAngle, st)

/-- One bot's slice of Room.updateAI, composed from the stages above.
Draw order follows the source: (missing-scratch-state creation draws a
wander angle), then on each elapsed think countdown the re-arm
interval and the target-or-wander coin (plus the wander perturbation
when wandering), then the aim jitter when a live target is held, then
the thrust coin. -/
def aiStepShip (mo : MathO) (rnd : Nat → ℚ) (dt : ℚ) (st : RoomState)
    (aiId : String) : RoomState :=
  match findShip st.ships aiId with
  | none => st
  | some ship =>
    if ship.isAlive then
      let p := aiGetState rnd st aiId
      let state0 := p.1
      let st := p.2
      let state1 : AiState := { state0 with nextThinkTime := state0.nextThinkTime - dt }
      let q := aiThink rnd st aiId ship state1
      let state2 := q.1
      let st := q.2
      let st := { st with aiState := mapAi aiId (fun _ => state2) st.aiState }
      let targetOpt : Option Ship :=
        match state2.targetId with
        | none => none
        | some tid => findShip st.ships tid
      let w := aiDesiredAngle mo rnd st ship state2 targetOpt
      let desiredAngle := w.1
      let st := w.2
      let angleDiff := normAngleLow (normAngleHigh (desiredAngle - ship.rotation))
      let turnSpeed := SHIP_ROTATION_SPEED * (75 / 100)
      let rot1 :=
        if |angleDiff| > 5 / 100 then ship.rotation + sgnQ angleDiff * turnSpeed * dt
        else ship.rotation
      let (rT, st) := draw rnd st
      let thr : Bool := if targetOpt.isSome then decide (rT < 7 / 10) else decide (rT < 3 / 10)
      let ship1 := { ship with rotation := rot1, isThrusting := thr }
      let st := { st with ships := mapShip aiId (fun _ => ship1) st.ships }
      if targetOpt.isSome ∧ |angleDiff| < 1 / 2 ∧ ship.fireCooldown ≤ 0 ∧ ship.invulnTimer ≤ 0 then
        let st := fireBullet mo st ship1
        { st with ships := (mapShip aiId
            (fun s => { s with fireCooldown := FIRE_COOLDOWN * (3 / 2) }) st.ships) }
      else st
    else st

/-- Room.updateAI: the bot step for each AI ship id in insertion order. -/
def updateAI (mo : MathO) (rnd : Nat → ℚ) (dt : ℚ) (st : RoomState) : RoomState :=
  st.aiShipIds.foldl (aiStepShip mo rnd dt) st

/-! ### The tick (Room.update) -/

/-- The physics part of Room.update after the clock block: ships,
bullets, asteroids, explosions, bots, then collision resolution. -/
def updateCore (mo : MathO) (rnd : Nat → ℚ) (dt : ℚ) (st : RoomState) : RoomState :=
  let p := shipsPhase mo rnd st.gameMode dt st.ships st.randIdx
  let st := { st with ships := p.1, randIdx := p.2 }
  let st := { st with bullets := bulletsPhase dt st.bullets }
  let st := asteroidsPhase mo rnd dt st
  let st := { st with explosions := explosionsPhase dt st.explosions }
  let st := updateAI mo rnd dt st
  checkCollisions mo rnd st

/-- Room.update: no-op outside the playing phase; advance the tick;
run the mode's win-condition clock (countdown for timed modes, the
alive-count check for knockout), entering gameover and returning
early when it fires; otherwise run the physics for this tick. -/
def update (mo : MathO) (rnd : Nat → ℚ) (dt : ℚ) (st : RoomState) : RoomState :=
  if st.phase = Phase.playing then
    let st := { st with tick := st.tick + 1 }
    if st.gameMode ≠ GameMode.knockout then
      let st := { st with gameTimer := st.gameTimer - dt }
      if st.gameTimer ≤ 0 then { st with gameTimer := 0, phase := Phase.gameover }
      else updateCore mo rnd dt st
    else
      if (st.ships.filter (fun s => s.isAlive)).length ≤ 1 then
        { st with phase := Phase.gameover }
      else updateCore mo rnd dt st
  else st

/-! ### Decidable state observations used by the claim statements -/

/-- Every ship entry with the given id is dead. -/
def allDead (l : List Ship) (sid : String) : Bool :=
  l.all (fun s => !(s.id == sid) || !s.isAlive)

/-- Every ship entry with the given id is alive. -/
def allAlive (l : List Ship) (sid : String) : Bool :=
  l.all (fun s => !(s.id == sid) || s.isAlive)

/-- The score of the ship with the given id, when present. -/
def scoreOf (st : RoomState) (sid : String) : Option ℚ :=
  (findShip st.ships sid).map (fun s => s.score)

/-! ### Concrete fixtures for the closed theorems -/

/-- Oracle instantiation used by closed theorems (values irrelevant to
every property proved about them). -/
def mo0 : MathO := ⟨fun _ => 1, fun _ => 0, fun _ => 0, fun _ _ => 0⟩

/-- Random-stream instantiation used by closed theorems. -/
def rnd0 : Nat → ℚ := fun _ => 1 / 2

/-- A playing free-for-all room with no entities. -/
def emptyRoom : RoomState :=
  { code := "ROOM", ships := [], asteroids := [], bullets := [], explosions := [],
    phase := .playing, tick := 0, gameTimer := 100, gameMode := .ffa, stats := [],
    asteroidSpawnTimer := 12, idCounter := 0, aiShipIds := [], aiState := [], randIdx := 0 }

/-- A live ship at rest at the given position with no cooldowns. -/
def mkShip (sid : String) (pos : Vec2) : Ship :=
  { id := sid, playerId := sid, position := pos, velocity := ⟨0, 0⟩, rotation := 0,
    isThrusting := false, color := "#FF6B6B", name := sid, score := 0, isAlive := true,
    respawnTimer := 0, fireCooldown := 0, invulnTimer := 0 }

/-- A fresh stats record. -/
def zeroStats : Stats := ⟨0, 0, 0, 0, 0, [], []⟩

/-- A bullet one unit short of the right world edge, flying right at
one unit per tick. -/
def c6Bullet : Bullet :=
  { id := "ROOM-9", ownerId := "A", ownerColor := "x", position := ⟨1919, 540⟩,
    velocity := ⟨60, 0⟩, lifetime := 1 }

/-- Room whose only entity is c6Bullet. -/
def c6St : RoomState := { emptyRoom with bullets := [c6Bullet] }

/-- Room whose only entity is a live ship with a fire cooldown smaller
than one tick. -/
def c7St : RoomState :=
  { emptyRoom with ships := [{ mkShip "A" ⟨100, 100⟩ with fireCooldown := 1 / 120 }] }

/-- A bullet owned by ship A sitting exactly on ship B. -/
def c5Bullet : Bullet :=
  { id := "ROOM-9", ownerId := "A", ownerColor := "x", position := ⟨300, 100⟩,
    velocity := ⟨0, 0⟩, lifetime := 1 }

/-- Room with ships A and B and c5Bullet about to kill B. -/
def c5St : RoomState :=
  { emptyRoom with
    ships := [mkShip "A" ⟨100, 100⟩, mkShip "B" ⟨300, 100⟩],
    bullets := [c5Bullet],
    stats := [("A", zeroStats), ("B", zeroStats)] }

/-- Room with two overlapping live ships. -/
def ramSt : RoomState :=
  { emptyRoom with ships := [mkShip "A" ⟨100, 100⟩, mkShip "B" ⟨105, 100⟩] }

/-- Room with a single ready-to-fire ship A. -/
def c2St : RoomState :=
  { emptyRoom with ships := [mkShip "A" ⟨100, 100⟩], stats := [("A", zeroStats)] }

/-- A fire-requesting input with no steering. -/
def inp0 : PlayerInput :=
  { sequenceNumber := 0, rotation := 0, thrust := false, fire := true, timestamp := 0 }

/-- A bullet owned by ship B sitting exactly on ship A. -/
def c3Bullet : Bullet :=
  { id := "ROOM-9", ownerId := "B", ownerColor := "x", position := ⟨100, 100⟩,
    velocity := ⟨0, 0⟩, lifetime := 1 }

/-- Room where invulnerable ship A overlaps ship B and B's bullet sits
on A. -/
def c3St : RoomState :=
  { emptyRoom with
    ships := [{ mkShip "A" ⟨100, 100⟩ with invulnTimer := 2 }, mkShip "B" ⟨105, 100⟩],
    bullets := [c3Bullet] }

/-- A knockout room in which ship B is already dead. -/
def c8St : RoomState :=
  { emptyRoom with
    gameMode := .knockout,
    ships := ([mkShip "A" ⟨100, 100⟩, mkShip "C" ⟨800, 800⟩,
      { mkShip "B" ⟨400, 400⟩ with isAlive := false, respawnTimer := 1 / 2 }]) }

/-! ### General helper lemmas -/

theorem circleCollision_symm (p1 p2 : Vec2) (r1 r2 : ℚ) :
    circleCollision p1 r1 p2 r2 = circleCollision p2 r2 p1 r1 := by
  have e1 : (p1.x - p2.x) * (p1.x - p2.x) + (p1.y - p2.y) * (p1.y - p2.y)
      = (p2.x - p1.x) * (p2.x - p1.x) + (p2.y - p1.y) * (p2.y - p1.y) := by ring
  have e2 : (r2 + r1) * (r2 + r1) = (r1 + r2) * (r1 + r2) := by ring
  simp only [circleCollision]
  rw [decide_eq_decide, e1, e2]

/-! ### C1 -/

/-- C1 (counterexample): the collision test of the code is not
toroidal.  Two ships-width circles hugging opposite vertical world
edges overlap across the seam (wrap-around deltas 2 and 0, radius sum
16), so the toroidal test of the spec reports a collision, but
Room.circleCollision uses only the direct deltas and reports none. -/
theorem c1_collision_not_toroidal :
    circleCollision ⟨1, 540⟩ 8 ⟨1919, 540⟩ 8 = false ∧
    specToroidalCollision ⟨1, 540⟩ 8 ⟨1919, 540⟩ 8 = true := by
  constructor
  · simp only [circleCollision, decide_eq_false_iff_not]
    norm_num
  · simp only [specToroidalCollision, WORLD_WIDTH, WORLD_HEIGHT, decide_eq_true_eq]
    norm_num [min_def, abs]

/-- C1 (amended): the pairwise collision test is plain Euclidean
circle-circle overlap on the direct coordinate deltas (no wrap-around
delta is considered); it is symmetric in its two arguments, and a pair
separated by exactly the sum of the two radii counts as colliding
(inclusive comparison). -/
theorem c1_collision_symm_inclusive (p1 p2 : Vec2) (r1 r2 : ℚ) :
    circleCollision p1 r1 p2 r2 = circleCollision p2 r2 p1 r1 ∧
    ((p2.x - p1.x) * (p2.x - p1.x) + (p2.y - p1.y) * (p2.y - p1.y)
        = (r1 + r2) * (r1 + r2) →
      circleCollision p1 r1 p2 r2 = true) := by
  refine ⟨circleCollision_symm p1 p2 r1 r2, fun h => ?_⟩
  simp only [circleCollision, decide_eq_true_eq]
  rw [h]

/-- Witness for c1_collision_symm_inclusive: two unit circles exactly
two units apart collide. -/
theorem c1_collision_symm_inclusive_witness :
    circleCollision ⟨0, 0⟩ 1 ⟨2, 0⟩ 1 = true :=
  (c1_collision_symm_inclusive ⟨0, 0⟩ ⟨2, 0⟩ 1 1).2 (by norm_num)

/-! ### C9 -/

/-- C9: applyInput for a player id with no ship entry, or whose every
ship entry is dead, leaves the whole room state unchanged. -/
theorem c9_applyInput_missing_or_dead_noop (mo : MathO) (st : RoomState)
    (pid : String) (inp : PlayerInput)
    (h : ∀ s ∈ st.ships, s.id = pid → s.isAlive = false) :
    applyInput mo st pid inp = st := by
  unfold applyInput
  cases hfind : findShip st.ships pid with
  | none => rfl
  | some s =>
    have hmem : s ∈ st.ships := List.mem_of_find?_eq_some hfind
    have hpred := List.find?_some hfind
    have hid : s.id = pid := by simpa using hpred
    have hdead : s.isAlive = false := h s hmem hid
    simp [hdead]

/-- Witness for c9_applyInput_missing_or_dead_noop: input for an
unknown player id is a no-op on a concrete room. -/
theorem c9_applyInput_noop_witness : applyInput mo0 c2St "ghost" inp0 = c2St :=
  c9_applyInput_missing_or_dead_noop mo0 c2St "ghost" inp0 (by decide)

/-! ### C2 -/

/-- C2: with fire requested, applyInput creates exactly one new bullet
precisely when the ship is alive, its fire cooldown has elapsed and it
is not invulnerable, resetting the cooldown to the fire-rate constant;
when the gate fails for a living ship only the rotation and thrust
intents change (no bullet, cooldown untouched); for a dead ship the
whole state is untouched. -/
theorem c2_fire_gating (mo : MathO) (st : RoomState) (pid : String)
    (inp : PlayerInput) (s : Ship)
    (hfind : findShip st.ships pid = some s) (hfire : inp.fire = true) :
    (s.isAlive = true → s.fireCooldown ≤ 0 → s.invulnTimer ≤ 0 →
      (applyInput mo st pid inp).bullets.length = st.bullets.length + 1 ∧
      (applyInput mo st pid inp).ships = (mapShip pid (fun _ =>
        { s with rotation := s.rotation + inp.rotation * SHIP_ROTATION_SPEED * (1 / TICK_RATE),
                 isThrusting := inp.thrust, fireCooldown := FIRE_COOLDOWN }) st.ships)) ∧
    (s.isAlive = true → ¬(s.fireCooldown ≤ 0 ∧ s.invulnTimer ≤ 0) →
      applyInput mo st pid inp = { st with ships := (mapShip pid (fun _ =>
        { s with rotation := s.rotation + inp.rotation * SHIP_ROTATION_SPEED * (1 / TICK_RATE),
                 isThrusting := inp.thrust }) st.ships) }) ∧
    (s.isAlive = false → applyInput mo st pid inp = st) := by
  refine ⟨fun ha h1 h2 => ?_, fun ha hn => ?_, fun hd => ?_⟩
  · have hg : inp.fire = true ∧ s.fireCooldown ≤ 0 ∧ s.invulnTimer ≤ 0 := ⟨hfire, h1, h2⟩
    simp only [applyInput, hfind, ha, if_true, fireBullet]
    rw [if_pos hg]
    constructor
    · simp [generateId, List.length_append]
    · rfl
  · simp only [applyInput, hfind, ha, if_true]
    rw [if_neg (fun hg => hn ⟨hg.2.1, hg.2.2⟩)]
  · simp [applyInput, hfind, hd]

/-- Witness for c2_fire_gating: a concrete ready ship fires exactly one
bullet. -/
theorem c2_fire_gating_witness :
    (applyInput mo0 c2St "A" inp0).bullets.length = c2St.bullets.length + 1 :=
  ((c2_fire_gating mo0 c2St "A" inp0 (mkShip "A" ⟨100, 100⟩)
    (by decide) (by decide)).1 (by decide) (by norm_num [mkShip]) (by norm_num [mkShip])).1

/-! ### C6 (amended theorem) -/

/-- C6 (amended): for a position whose coordinates lie within one world
size of the bounds, wrapPosition lands in the closed box
[0, worldWidth] x [0, worldHeight] — the upper edges inclusive, not
strict — and a position just outside a bound is shifted exactly one
world size onto the opposite edge. -/
theorem c6_wrap_bounds (p : Vec2)
    (hx1 : -WORLD_WIDTH ≤ p.x) (hx2 : p.x ≤ 2 * WORLD_WIDTH)
    (hy1 : -WORLD_HEIGHT ≤ p.y) (hy2 : p.y ≤ 2 * WORLD_HEIGHT) :
    (0 ≤ (wrapPosition p).x ∧ (wrapPosition p).x ≤ WORLD_WIDTH ∧
     0 ≤ (wrapPosition p).y ∧ (wrapPosition p).y ≤ WORLD_HEIGHT) ∧
    (p.x < 0 → (wrapPosition p).x = p.x + WORLD_WIDTH) ∧
    (WORLD_WIDTH < p.x → (wrapPosition p).x = p.x - WORLD_WIDTH) ∧
    (p.y < 0 → (wrapPosition p).y = p.y + WORLD_HEIGHT) ∧
    (WORLD_HEIGHT < p.y → (wrapPosition p).y = p.y - WORLD_HEIGHT) := by
  have hW : (0 : ℚ) < WORLD_WIDTH := by norm_num [WORLD_WIDTH]
  have hH : (0 : ℚ) < WORLD_HEIGHT := by norm_num [WORLD_HEIGHT]
  simp only [wrapPosition]
  refine ⟨⟨?_, ?_, ?_, ?_⟩, ?_, ?_, ?_, ?_⟩ <;>
    · intros
      split_ifs <;> linarith

/-- Witness for c6_wrap_bounds at a concrete position just outside the
left and bottom bounds. -/
theorem c6_wrap_bounds_witness :
    (0 ≤ (wrapPosition ⟨-5, 1085⟩).x ∧ (wrapPosition ⟨-5, 1085⟩).x ≤ WORLD_WIDTH ∧
     0 ≤ (wrapPosition ⟨-5, 1085⟩).y ∧ (wrapPosition ⟨-5, 1085⟩).y ≤ WORLD_HEIGHT) ∧
    ((-5 : ℚ) < 0 → (wrapPosition ⟨-5, 1085⟩).x = -5 + WORLD_WIDTH) ∧
    (WORLD_WIDTH < (-5 : ℚ) → (wrapPosition ⟨-5, 1085⟩).x = -5 - WORLD_WIDTH) ∧
    ((1085 : ℚ) < 0 → (wrapPosition ⟨-5, 1085⟩).y = 1085 + WORLD_HEIGHT) ∧
    (WORLD_HEIGHT < (1085 : ℚ) → (wrapPosition ⟨-5, 1085⟩).y = 1085 - WORLD_HEIGHT) :=
  c6_wrap_bounds ⟨-5, 1085⟩ (by norm_num [WORLD_WIDTH]) (by norm_num [WORLD_WIDTH])
    (by norm_num [WORLD_HEIGHT]) (by norm_num [WORLD_HEIGHT])

/-! ### C7 (amended theorem) -/

/-- C7 (amended): in the ship-integration step of a tick, a living
ship's fire cooldown and invulnerability timer are each decremented by
dt exactly when strictly positive and left unchanged otherwise: a
timer may overshoot below zero by up to dt in the tick it expires (it
is not floored at zero), and a timer that is already at or below zero
is never decremented further. -/
theorem c7_timer_step (mo : MathO) (rnd : Nat → ℚ) (gm : GameMode) (dt : ℚ)
    (s : Ship) (ri : Nat) (halive : s.isAlive = true) :
    (shipStep mo rnd gm dt s ri).1.fireCooldown
        = (if s.fireCooldown > 0 then s.fireCooldown - dt else s.fireCooldown) ∧
    (shipStep mo rnd gm dt s ri).1.invulnTimer
        = (if s.invulnTimer > 0 then s.invulnTimer - dt else s.invulnTimer) := by
  simp only [shipStep, halive, if_true]
  split_ifs <;> simp_all

/-- Witness for c7_timer_step: a cooldown of half a tick is decremented
by a whole tick (to a negative value), the zero invulnerability timer
is untouched. -/
theorem c7_timer_step_witness :
    (shipStep mo0 rnd0 GameMode.ffa (1 / 60)
        { mkShip "A" ⟨100, 100⟩ with fireCooldown := 1 / 120 } 0).1.fireCooldown
      = (if (1 / 120 : ℚ) > 0 then (1 / 120 : ℚ) - 1 / 60 else 1 / 120) :=
  (c7_timer_step mo0 rnd0 GameMode.ffa (1 / 60)
    { mkShip "A" ⟨100, 100⟩ with fireCooldown := 1 / 120 } 0 (by decide)).1

/-! ### Stepping lemmas for evaluating update on concrete states -/

theorem update_playing_ffa (mo : MathO) (rnd : Nat → ℚ) (dt : ℚ) (st : RoomState)
    (h1 : st.phase = Phase.playing) (h2 : st.gameMode = GameMode.ffa)
    (h3 : ¬(st.gameTimer - dt ≤ 0)) :
    update mo rnd dt st
      = updateCore mo rnd dt { st with tick := st.tick + 1, gameTimer := st.gameTimer - dt } := by
  simp only [update, h1, h2, h3]
  simp

theorem asteroidsPhase_not_hunters (mo : MathO) (rnd : Nat → ℚ) (dt : ℚ)
    (st : RoomState) (h : st.gameMode ≠ GameMode.asteroidHunters) :
    asteroidsPhase mo rnd dt st = st := by
  simp [asteroidsPhase, h, MAX_ASTEROIDS]

theorem updateAI_no_ai (mo : MathO) (rnd : Nat → ℚ) (dt : ℚ) (st : RoomState)
    (h : st.aiShipIds = []) : updateAI mo rnd dt st = st := by
  simp [updateAI, h]

/-! ### C6 (counterexample) -/

/-- C6 (counterexample): the strict upper bound fails.  A bullet one
unit short of the right world edge moving one unit per tick ends the
update at position.x = worldWidth exactly, and wrapPosition leaves it
there (its test is strict), so after update the claimed invariant
position.x < worldWidth is violated. -/
theorem c6_strict_bound_fails :
    ((update mo0 rnd0 (1 / 60) c6St).bullets.map (fun b => b.position.x)) = [WORLD_WIDTH] ∧
    ¬(WORLD_WIDTH < WORLD_WIDTH) := by
  refine ⟨?_, lt_irrefl WORLD_WIDTH⟩
  rw [update_playing_ffa mo0 rnd0 (1 / 60) c6St (by decide) (by decide)
    (by norm_num [c6St, emptyRoom])]
  simp only [updateCore]
  rw [asteroidsPhase_not_hunters _ _ _ _ (by decide)]
  rw [updateAI_no_ai _ _ _ _ (by decide)]
  norm_num [checkCollisions, collisionHitsA, collisionHitsS, collisionKillList,
    c6St, c6Bullet, emptyRoom, shipsPhase, bulletsPhase,
    bulletAsteroidPass, bulletShipPass, shipAsteroidPass, shipShipPass,
    recordShotsHit, killsGo, explosionsPhase, wrapPosition, WORLD_WIDTH, WORLD_HEIGHT]

/-! ### C7 (counterexample) -/

/-- C7 (counterexample): the timers are not floored at zero.  A living
ship entering the tick with fireCooldown of half a tick leaves update
with a strictly negative fireCooldown. -/
theorem c7_not_floored :
    ((update mo0 rnd0 (1 / 60) c7St).ships.map (fun s => s.fireCooldown)) = [-(1 / 120)] ∧
    (-(1 / 120) : ℚ) < 0 := by
  refine ⟨?_, by norm_num⟩
  rw [update_playing_ffa mo0 rnd0 (1 / 60) c7St (by decide) (by decide)
    (by norm_num [c7St, emptyRoom])]
  simp only [updateCore]
  rw [asteroidsPhase_not_hunters _ _ _ _ (by decide)]
  rw [updateAI_no_ai _ _ _ _ (by decide)]
  norm_num [checkCollisions, collisionHitsA, collisionHitsS, collisionKillList,
    c7St, mkShip, emptyRoom, shipsPhase, shipStep, bulletsPhase,
    bulletAsteroidPass, bulletShipPass, shipAsteroidPass, shipShipPass,
    recordShotsHit, killsGo, explosionsPhase, wrapPosition, WORLD_WIDTH, WORLD_HEIGHT]

/-! ### Lookup lemmas for keyed in-place updates -/

theorem spawnExplosion_ships (st : RoomState) (p : Vec2) (c : String) (sz : ExplosionSize) :
    (spawnExplosion st p c sz).ships = st.ships := rfl

theorem spawnExplosion_stats (st : RoomState) (p : Vec2) (c : String) (sz : ExplosionSize) :
    (spawnExplosion st p c sz).stats = st.stats := rfl

theorem findShip_mapShip_self (tid : String) (f : Ship → Ship) (l : List Ship)
    (hid : ∀ s, (f s).id = s.id) :
    findShip (mapShip tid f l) tid = (findShip l tid).map f := by
  induction l with
  | nil => rfl
  | cons a l ih =>
    by_cases h : (a.id == tid) = true
    · simp [findShip, mapShip, List.find?, h, hid]
    · simpa [findShip, mapShip, List.find?, h, hid] using ih

theorem findShip_mapShip_ne (sid tid : String) (f : Ship → Ship) (l : List Ship)
    (hid : ∀ s, (f s).id = s.id) (hne : sid ≠ tid) :
    findShip (mapShip tid f l) sid = findShip l sid := by
  induction l with
  | nil => rfl
  | cons a l ih =>
    by_cases h : (a.id == sid) = true
    · have htid : (a.id == tid) = false := by
        simp only [beq_iff_eq] at h ⊢
        simpa [h] using hne
      simp [findShip, mapShip, List.find?, h, htid]
    · by_cases h2 : (a.id == tid) = true
      · have hfa : ((f a).id == sid) = false := by
          simp only [beq_iff_eq] at h ⊢
          simpa [hid] using h
        simpa [findShip, mapShip, List.find?, h, h2, hfa] using ih
      · simpa [findShip, mapShip, List.find?, h, h2] using ih

theorem statsFind_mapStats_self (k : String) (f : Stats → Stats)
    (l : List (String × Stats)) :
    statsFind (mapStats k f l) k = (statsFind l k).map f := by
  induction l with
  | nil => rfl
  | cons a l ih =>
    by_cases h : (a.1 == k) = true
    · simp [statsFind, mapStats, List.find?, h]
    · simpa [statsFind, mapStats, List.find?, h] using ih

theorem statsFind_mapStats_ne (x k : String) (f : Stats → Stats)
    (l : List (String × Stats)) (hne : x ≠ k) :
    statsFind (mapStats k f l) x = statsFind l x := by
  induction l with
  | nil => rfl
  | cons a l ih =>
    by_cases h : (a.1 == x) = true
    · have hk : (a.1 == k) = false := by
        simp only [beq_iff_eq] at h ⊢
        simpa [h] using hne
      simp [statsFind, mapStats, List.find?, h, hk]
    · by_cases h2 : (a.1 == k) = true
      · simpa [statsFind, mapStats, List.find?, h, h2] using ih
      · simpa [statsFind, mapStats, List.find?, h, h2] using ih

theorem mapShip_all_self (tid : String) (f : Ship → Ship) (l : List Ship)
    (p : Ship → Bool) (hid : ∀ s, (f s).id = s.id) (hp : ∀ s, p (f s) = true) :
    (mapShip tid f l).all (fun s => !(s.id == tid) || p s) = true := by
  induction l with
  | nil => rfl
  | cons a l ih =>
    simp only [mapShip, List.map_cons, List.all_cons, Bool.and_eq_true] at *
    refine ⟨?_, ih⟩
    by_cases h : (a.id == tid) = true
    · simp [h, hid, hp]
    · simp [h]

/-! ### C5 -/

/-- C5 (counterexample): the kill bonus the code awards is the
hardcoded 50 points, not the KILL_SCORE constant (200) of the shared
configuration.  In a concrete room where a bullet owned by ship A
overlaps living, non-invulnerable ship B, collision resolution leaves
A with score 50, not 0 + KILL_SCORE. -/
theorem c5_kill_bonus_not_KILL_SCORE :
    scoreOf (checkCollisions mo0 rnd0 c5St) "A" = some 50 ∧
    scoreOf c5St "A" = some 0 ∧
    KILL_SCORE = 200 ∧ (50 : ℚ) ≠ 0 + KILL_SCORE := by
  refine ⟨?_, by decide, by norm_num [KILL_SCORE], by norm_num [KILL_SCORE]⟩
  simp [checkCollisions, collisionHitsA, collisionHitsS, collisionKillList,
    c5St, c5Bullet, mkShip, emptyRoom, zeroStats,
    bulletAsteroidPass, bulletShipPass, shipAsteroidPass, shipShipPass,
    recordShotsHit, killsGo, killShip, findShip, mapShip, mapStats, bumpCount,
    statsFind, scoreOf, spawnExplosion, generateId, circleCollision,
    BULLET_RADIUS, SHIP_RADIUS,
    show ((0 : ℚ) ≤ (3 / 2 + 8) * (3 / 2 + 8)) from by norm_num,
    show ¬(((300 : ℚ) - 100) * (300 - 100) + (100 - 100) * (100 - 100)
        ≤ (8 + 8) * (8 + 8)) from by norm_num,
    show ((8 + 8 : ℚ) * (8 + 8) < (300 - 100) * (300 - 100)) from by norm_num,
    show ¬((1 : ℚ) ≤ 0) from by norm_num,
    show ¬((0 : ℚ) < 0) from by norm_num]

/-- C5 (amended): when killShip runs for victim B with an attributed
killer A distinct from B, every B entry is marked dead with its
respawn timer set to the configured respawn duration, A's ship gains
exactly 50 points (the hardcoded bonus; not GAME_CONFIG.KILL_SCORE),
A's kill tally increments by one and B's death tally increments by
one. -/
theorem c5_kill_scoring (st : RoomState) (victim : Ship) (kid : String)
    (hk : kid ≠ victim.id) (kship : Ship)
    (hkship : findShip st.ships kid = some kship) (kst vst : Stats)
    (hks : statsFind st.stats kid = some kst)
    (hvs : statsFind st.stats victim.id = some vst) :
    allDead (killShip st victim (some kid)).ships victim.id = true ∧
    ((killShip st victim (some kid)).ships.all
      (fun s => !(s.id == victim.id) || decide (s.respawnTimer = SHIP_RESPAWN_TIME))) = true ∧
    scoreOf (killShip st victim (some kid)) kid = some (kship.score + 50) ∧
    (statsFind (killShip st victim (some kid)).stats kid).map Stats.kills
        = some (kst.kills + 1) ∧
    (statsFind (killShip st victim (some kid)).stats victim.id).map Stats.deaths
        = some (vst.deaths + 1) := by
  have hk' : victim.id ≠ kid := fun h => hk h.symm
  simp only [killShip, if_pos hk, spawnExplosion_ships, spawnExplosion_stats, scoreOf]
  refine ⟨?_, ?_, ?_, ?_, ?_⟩
  · exact mapShip_all_self _ _ _ _ (by intro s; rfl) (by intro s; rfl)
  · exact mapShip_all_self _ _ _ _ (by intro s; rfl) (by intro s; simp)
  · rw [findShip_mapShip_ne _ _ _ _ (by intro s; rfl) hk,
      findShip_mapShip_self _ _ _ (by intro s; rfl), hkship]
    rfl
  · rw [statsFind_mapStats_self, statsFind_mapStats_ne _ _ _ _ hk, hks]
    rfl
  · rw [statsFind_mapStats_ne _ _ _ _ hk', statsFind_mapStats_self, hvs]
    rfl

/-- Witness for c5_kill_scoring on a concrete two-ship room. -/
theorem c5_kill_scoring_witness :
    allDead (killShip c5St (mkShip "B" ⟨300, 100⟩) (some "A")).ships "B" = true ∧
    ((killShip c5St (mkShip "B" ⟨300, 100⟩) (some "A")).ships.all
      (fun s => !(s.id == "B") || decide (s.respawnTimer = SHIP_RESPAWN_TIME))) = true ∧
    scoreOf (killShip c5St (mkShip "B" ⟨300, 100⟩) (some "A")) "A"
        = some ((mkShip "A" ⟨100, 100⟩).score + 50) ∧
    (statsFind (killShip c5St (mkShip "B" ⟨300, 100⟩) (some "A")).stats "A").map Stats.kills
        = some (zeroStats.kills + 1) ∧
    (statsFind (killShip c5St (mkShip "B" ⟨300, 100⟩) (some "A")).stats "B").map Stats.deaths
        = some (zeroStats.deaths + 1) :=
  c5_kill_scoring c5St (mkShip "B" ⟨300, 100⟩) "A" (by decide)
    (mkShip "A" ⟨100, 100⟩) (by decide) zeroStats zeroStats (by decide) (by decide)

/-! ### Life-status bookkeeping lemmas for collision resolution -/

theorem allDead_iff (l : List Ship) (sid : String) :
    allDead l sid = true ↔ ∀ s ∈ l, s.id = sid → s.isAlive = false := by
  simp only [allDead, List.all_eq_true, Bool.or_eq_true, Bool.not_eq_true',
    beq_eq_false_iff_ne, ne_eq, Bool.not_eq_true]
  constructor
  · intro hh s hs hid
    rcases hh s hs with h1 | h2
    · exact absurd hid h1
    · exact h2
  · intro hh s hs
    by_cases hid : s.id = sid
    · exact Or.inr (hh s hs hid)
    · exact Or.inl hid

theorem allAlive_iff (l : List Ship) (sid : String) :
    allAlive l sid = true ↔ ∀ s ∈ l, s.id = sid → s.isAlive = true := by
  simp only [allAlive, List.all_eq_true, Bool.or_eq_true, Bool.not_eq_true',
    beq_eq_false_iff_ne, ne_eq]
  constructor
  · intro hh s hs hid
    rcases hh s hs with h1 | h2
    · exact absurd hid h1
    · exact h2
  · intro hh s hs
    by_cases hid : s.id = sid
    · exact Or.inr (hh s hs hid)
    · exact Or.inl hid

theorem allDead_mapShip (tid : String) (f : Ship → Ship) (l : List Ship) (sid : String)
    (hid : ∀ s, (f s).id = s.id) (hpr : ∀ s, s.isAlive = false → (f s).isAlive = false)
    (h : allDead l sid = true) : allDead (mapShip tid f l) sid = true := by
  rw [allDead_iff] at h ⊢
  intro s hs hsid
  simp only [mapShip, List.mem_map] at hs
  obtain ⟨t, ht, rfl⟩ := hs
  by_cases hc : (t.id == tid) = true
  · rw [if_pos hc] at hsid ⊢
    exact hpr t (h t ht (by rw [← hid t]; exact hsid))
  · rw [if_neg hc] at hsid ⊢
    exact h t ht hsid

theorem allAlive_mapShip_pres (tid : String) (f : Ship → Ship) (l : List Ship) (sid : String)
    (hid : ∀ s, (f s).id = s.id) (hpr : ∀ s, (f s).isAlive = s.isAlive)
    (h : allAlive l sid = true) : allAlive (mapShip tid f l) sid = true := by
  rw [allAlive_iff] at h ⊢
  intro s hs hsid
  simp only [mapShip, List.mem_map] at hs
  obtain ⟨t, ht, rfl⟩ := hs
  by_cases hc : (t.id == tid) = true
  · rw [if_pos hc] at hsid ⊢
    rw [hpr]
    exact h t ht (by rw [← hid t]; exact hsid)
  · rw [if_neg hc] at hsid ⊢
    exact h t ht hsid

theorem allAlive_mapShip_ne (tid : String) (f : Ship → Ship) (l : List Ship) (sid : String)
    (hid : ∀ s, (f s).id = s.id) (hne : sid ≠ tid)
    (h : allAlive l sid = true) : allAlive (mapShip tid f l) sid = true := by
  rw [allAlive_iff] at h ⊢
  intro s hs hsid
  simp only [mapShip, List.mem_map] at hs
  obtain ⟨t, ht, rfl⟩ := hs
  by_cases hc : (t.id == tid) = true
  · exfalso
    apply hne
    rw [if_pos hc] at hsid
    rw [← hsid, hid t]
    exact beq_iff_eq.mp hc
  · rw [if_neg hc] at hsid ⊢
    exact h t ht hsid

theorem killShip_allDead_self (st : RoomState) (v : Ship) (k : Option String) :
    allDead (killShip st v k).ships v.id = true := by
  have key : ∀ l : List Ship,
      allDead (mapShip v.id (fun s =>
        { s with isAlive := false, respawnTimer := SHIP_RESPAWN_TIME,
                 velocity := ⟨0, 0⟩ }) l) v.id = true := by
    intro l
    exact mapShip_all_self _ _ _ _ (by intro s; rfl) (by intro s; rfl)
  cases k with
  | none => exact key _
  | some kid =>
    by_cases hk : kid ≠ v.id
    · simp only [killShip, if_pos hk]
      exact key _
    · simp only [killShip, if_neg hk]
      exact key _

theorem killShip_allDead_mono (st : RoomState) (v : Ship) (k : Option String)
    (sid : String) (h : allDead st.ships sid = true) :
    allDead (killShip st v k).ships sid = true := by
  have step2 : ∀ l : List Ship, allDead l sid = true →
      allDead (mapShip v.id (fun s =>
        { s with isAlive := false, respawnTimer := SHIP_RESPAWN_TIME,
                 velocity := ⟨0, 0⟩ }) l) sid = true := by
    intro l hl
    exact allDead_mapShip _ _ _ _ (by intro s; rfl) (by intro s _; rfl) hl
  cases k with
  | none => exact step2 _ h
  | some kid =>
    by_cases hk : kid ≠ v.id
    · simp only [killShip, if_pos hk, spawnExplosion_ships]
      refine step2 _ ?_
      exact allDead_mapShip _ _ _ _ (by intro s; rfl) (by intro s hh; simpa using hh) h
    · simp only [killShip, if_neg hk]
      exact step2 _ h

theorem killShip_allAlive_ne (st : RoomState) (v : Ship) (k : Option String)
    (sid : String) (hv : sid ≠ v.id) (h : allAlive st.ships sid = true) :
    allAlive (killShip st v k).ships sid = true := by
  have step2 : ∀ l : List Ship, allAlive l sid = true →
      allAlive (mapShip v.id (fun s =>
        { s with isAlive := false, respawnTimer := SHIP_RESPAWN_TIME,
                 velocity := ⟨0, 0⟩ }) l) sid = true := by
    intro l hl
    exact allAlive_mapShip_ne _ _ _ _ (by intro s; rfl) hv hl
  cases k with
  | none => exact step2 _ h
  | some kid =>
    by_cases hk : kid ≠ v.id
    · simp only [killShip, if_pos hk, spawnExplosion_ships]
      refine step2 _ ?_
      exact allAlive_mapShip_pres _ _ _ _ (by intro s; rfl) (by intro s; rfl) h
    · simp only [killShip, if_neg hk]
      exact step2 _ h

theorem mapShip_ids (tid : String) (f : Ship → Ship) (l : List Ship)
    (hid : ∀ s, (f s).id = s.id) :
    (mapShip tid f l).map Ship.id = l.map Ship.id := by
  induction l with
  | nil => rfl
  | cons a l ih =>
    simp only [mapShip, List.map_cons] at *
    rw [ih]
    congr 1
    by_cases hc : (a.id == tid) = true
    · rw [if_pos hc]
      exact hid a
    · rw [if_neg hc]

theorem killShip_ids (st : RoomState) (v : Ship) (k : Option String) :
    (killShip st v k).ships.map Ship.id = st.ships.map Ship.id := by
  have step2 : ∀ l : List Ship,
      (mapShip v.id (fun s =>
        { s with isAlive := false, respawnTimer := SHIP_RESPAWN_TIME,
                 velocity := ⟨0, 0⟩ }) l).map Ship.id = l.map Ship.id := by
    intro l
    exact mapShip_ids _ _ _ (by intro s; rfl)
  cases k with
  | none => exact step2 _
  | some kid =>
    by_cases hk : kid ≠ v.id
    · simp only [killShip, if_pos hk, spawnExplosion_ships]
      rw [step2, mapShip_ids _ _ _ (by intro s; rfl)]
    · simp only [killShip, if_neg hk]
      exact step2 _

theorem findShip_eq_none_allDead (l : List Ship) (sid : String)
    (h : findShip l sid = none) : allDead l sid = true := by
  rw [allDead_iff]
  intro s hs hsid
  exfalso
  rw [findShip, List.find?_eq_none] at h
  exact h s hs (by simpa using hsid)

theorem allDead_of_find_dead (l : List Ship) (sid : String) (s : Ship)
    (hnd : (l.map Ship.id).Nodup) (hfind : findShip l sid = some s)
    (hdead : s.isAlive = false) : allDead l sid = true := by
  rw [allDead_iff]
  intro t ht htid
  have hs : s ∈ l := List.mem_of_find?_eq_some hfind
  have hsid : s.id = sid := by simpa using List.find?_some hfind
  have : t = s := List.inj_on_of_nodup_map hnd ht hs (by rw [htid, hsid])
  rw [this]
  exact hdead

theorem killsGo_allDead_mono (l : List (String × Option String)) (killed : List String)
    (st : RoomState) (sid : String) (h : allDead st.ships sid = true) :
    allDead (killsGo l killed st).ships sid = true := by
  induction l generalizing killed st with
  | nil => exact h
  | cons e rest ih =>
    obtain ⟨hid, k⟩ := e
    cases hfind : findShip st.ships hid with
    | none =>
      simp only [killsGo, hfind]
      exact ih killed st h
    | some s =>
      simp only [killsGo, hfind]
      by_cases hskip : (killed.contains hid || !s.isAlive) = true
      · rw [if_pos hskip]
        exact ih killed st h
      · rw [if_neg hskip]
        exact ih _ _ (killShip_allDead_mono st s k sid h)

theorem killsGo_allAlive_not_target (l : List (String × Option String))
    (killed : List String) (st : RoomState) (sid : String)
    (hnot : sid ∉ l.map Prod.fst) (h : allAlive st.ships sid = true) :
    allAlive (killsGo l killed st).ships sid = true := by
  induction l generalizing killed st with
  | nil => exact h
  | cons e rest ih =>
    obtain ⟨hid, k⟩ := e
    have hne : sid ≠ hid := by
      intro hEq
      exact hnot (by simp [hEq])
    have hnot' : sid ∉ rest.map Prod.fst := by
      intro hmem
      exact hnot (by simp [hmem])
    cases hfind : findShip st.ships hid with
    | none =>
      simp only [killsGo, hfind]
      exact ih killed st hnot' h
    | some s =>
      simp only [killsGo, hfind]
      by_cases hskip : (killed.contains hid || !s.isAlive) = true
      · rw [if_pos hskip]
        exact ih killed st hnot' h
      · rw [if_neg hskip]
        have hsid : s.id = hid := by simpa using List.find?_some hfind
        refine ih _ _ hnot' (killShip_allAlive_ne st s k sid ?_ h)
        rw [hsid]
        exact hne

theorem killsGo_kills_target (l : List (String × Option String)) (killed : List String)
    (st : RoomState) (sid : String) (hmem : sid ∈ l.map Prod.fst)
    (hnd : (st.ships.map Ship.id).Nodup)
    (hkilled : ∀ x ∈ killed, allDead st.ships x = true) :
    allDead (killsGo l killed st).ships sid = true := by
  induction l generalizing killed st with
  | nil => exact absurd hmem (by simp)
  | cons e rest ih =>
    obtain ⟨hid, k⟩ := e
    simp only [List.map_cons, List.mem_cons] at hmem
    cases hfind : findShip st.ships hid with
    | none =>
      simp only [killsGo, hfind]
      rcases hmem with hEq | hmem'
      · have : allDead st.ships sid = true := by
          rw [hEq]
          exact findShip_eq_none_allDead st.ships hid hfind
        exact killsGo_allDead_mono rest killed st sid this
      · exact ih killed st hmem' hnd hkilled
    | some s =>
      simp only [killsGo, hfind]
      by_cases hskip : (killed.contains hid || !s.isAlive) = true
      · rw [if_pos hskip]
        rcases hmem with hEq | hmem'
        · subst hEq
          rcases Bool.or_eq_true _ _ |>.mp hskip with hin | hdead

          · have : allDead st.ships sid = true :=
              hkilled sid (by simpa using hin)
            exact killsGo_allDead_mono rest killed st sid this
          · have hdead' : s.isAlive = false := by simpa using hdead
            exact killsGo_allDead_mono rest killed st sid
              (allDead_of_find_dead st.ships sid s hnd hfind hdead')
        · exact ih killed st hmem' hnd hkilled
      · rw [if_neg hskip]
        have hsid : s.id = hid := by simpa using List.find?_some hfind
        have hnd' : ((killShip st s k).ships.map Ship.id).Nodup := by
          rw [killShip_ids]
          exact hnd
        have hdeadhid : allDead (killShip st s k).ships hid = true := by
          rw [← hsid]
          exact killShip_allDead_self st s k
        have hkilled' : ∀ x ∈ killed ++ [hid],
            allDead (killShip st s k).ships x = true := by
          intro x hx
          rcases List.mem_append.mp hx with hx1 | hx2
          · exact killShip_allDead_mono st s k x (hkilled x hx1)
          · have : x = hid := by simpa using hx2
            rw [this]
            exact hdeadhid
        rcases hmem with hEq | hmem'
        · subst hEq
          exact killsGo_allDead_mono rest _ _ sid hdeadhid
        · exact ih _ _ hmem' hnd' hkilled'

/-! ### Membership facts for the collision passes -/

theorem bulletShipPass_mem (ships : List Ship) (bullets : List Bullet)
    (consumed : List String) (b : Bullet) (t : Ship)
    (h : (b, t) ∈ bulletShipPass ships bullets consumed) :
    t ∈ ships ∧ t.isAlive = true ∧ t.invulnTimer ≤ 0 ∧ t.id ≠ b.ownerId := by
  induction bullets generalizing consumed with
  | nil => simp [bulletShipPass] at h
  | cons b0 rest ih =>
    by_cases hc : consumed.contains b0.id = true
    · rw [bulletShipPass, if_pos hc] at h
      exact ih _ h
    · rw [bulletShipPass, if_neg hc] at h
      cases hfind : ships.find? (fun s =>
          !(s.id == b0.ownerId) && s.isAlive && !(decide (s.invulnTimer > 0)) &&
          circleCollision b0.position BULLET_RADIUS s.position SHIP_RADIUS) with
      | none =>
        rw [hfind] at h
        exact ih _ h
      | some s =>
        rw [hfind] at h
        rcases List.mem_cons.mp h with hEq | hmem
        · have hpair : b = b0 ∧ t = s := by
            constructor <;> [exact congrArg Prod.fst hEq; exact congrArg Prod.snd hEq]
          obtain ⟨hb, ht⟩ := hpair
          subst hb
          subst ht
          have hsmem : t ∈ ships := List.mem_of_find?_eq_some hfind
          have hpred := List.find?_some hfind
          simp only [Bool.and_eq_true, Bool.not_eq_true', beq_eq_false_iff_ne,
            decide_eq_false_iff_not, not_lt] at hpred
          exact ⟨hsmem, hpred.1.1.2, hpred.1.2, hpred.1.1.1⟩
        · exact ih _ hmem

theorem shipAsteroidPass_mem (asteroids : List Asteroid) (ships : List Ship)
    (tid : String) (h : tid ∈ shipAsteroidPass asteroids ships) :
    ∃ t ∈ ships, t.id = tid ∧ t.isAlive = true ∧ t.invulnTimer ≤ 0 := by
  induction ships with
  | nil => simp [shipAsteroidPass] at h
  | cons s rest ih =>
    by_cases hok : (s.isAlive && !(decide (s.invulnTimer > 0))) = true
    · rw [shipAsteroidPass, if_pos hok] at h
      have hok' : s.isAlive = true ∧ s.invulnTimer ≤ 0 := by
        simp only [Bool.and_eq_true, Bool.not_eq_true', decide_eq_false_iff_not,
          not_lt] at hok
        exact hok
      by_cases hhit : (asteroids.any (fun a =>
          circleCollision s.position SHIP_RADIUS a.position a.radius)) = true
      · rw [if_pos hhit] at h
        rcases List.mem_cons.mp h with hEq | hmem
        · exact ⟨s, List.mem_cons_self s rest, hEq.symm, hok'.1, hok'.2⟩
        · obtain ⟨t, ht, rest'⟩ := ih hmem
          exact ⟨t, List.mem_cons_of_mem s ht, rest'⟩
      · rw [if_neg hhit] at h
        obtain ⟨t, ht, rest'⟩ := ih h
        exact ⟨t, List.mem_cons_of_mem s ht, rest'⟩
    · rw [shipAsteroidPass, if_neg hok] at h
      obtain ⟨t, ht, rest'⟩ := ih h
      exact ⟨t, List.mem_cons_of_mem s ht, rest'⟩

theorem shipShipPass_mem (ships : List Ship) (tid : String)
    (h : tid ∈ shipShipPass ships) :
    ∃ t ∈ ships, t.id = tid ∧ t.isAlive = true ∧ t.invulnTimer ≤ 0 := by
  induction ships with
  | nil => simp [shipShipPass] at h
  | cons s1 rest ih =>
    rw [shipShipPass] at h
    rcases List.mem_append.mp h with hleft | hright
    · by_cases hok : (s1.isAlive && !(decide (s1.invulnTimer > 0))) = true
      · rw [if_pos hok] at hleft
        have hok' : s1.isAlive = true ∧ s1.invulnTimer ≤ 0 := by
          simp only [Bool.and_eq_true, Bool.not_eq_true', decide_eq_false_iff_not,
            not_lt] at hok
          exact hok
        rw [List.mem_flatMap] at hleft
        obtain ⟨s2, hs2, hin⟩ := hleft
        have hs2' := List.mem_filter.mp hs2
        have hs2ok : s2.isAlive = true ∧ s2.invulnTimer ≤ 0 := by
          have := hs2'.2
          simp only [Bool.and_eq_true, Bool.not_eq_true', decide_eq_false_iff_not,
            not_lt] at this
          exact ⟨this.1.1, this.1.2⟩
        rcases List.mem_cons.mp hin with h1 | h2
        · exact ⟨s1, List.mem_cons_self s1 rest, h1.symm, hok'.1, hok'.2⟩
        · have h2' : tid = s2.id := by simpa using h2
          exact ⟨s2, List.mem_cons_of_mem s1 hs2'.1, h2'.symm, hs2ok.1, hs2ok.2⟩
      · rw [if_neg hok] at hleft
        simp at hleft
    · obtain ⟨t, ht, rest'⟩ := ih hright
      exact ⟨t, List.mem_cons_of_mem s1 ht, rest'⟩

/-- Completeness of the ram pass: any two distinct-id, living,
non-invulnerable, overlapping ships are both scheduled. -/
theorem shipShipPass_both (l : List Ship) (s1 s2 : Ship)
    (h1 : s1 ∈ l) (h2 : s2 ∈ l) (hne : s1.id ≠ s2.id)
    (ha1 : s1.isAlive = true) (ha2 : s2.isAlive = true)
    (hi1 : s1.invulnTimer ≤ 0) (hi2 : s2.invulnTimer ≤ 0)
    (hc : circleCollision s1.position SHIP_RADIUS s2.position SHIP_RADIUS = true) :
    s1.id ∈ shipShipPass l ∧ s2.id ∈ shipShipPass l := by
  have hok1 : (s1.isAlive && !(decide (s1.invulnTimer > 0))) = true := by
    simp [ha1, not_lt.mpr hi1]
  have hok2 : (s2.isAlive && !(decide (s2.invulnTimer > 0))) = true := by
    simp [ha2, not_lt.mpr hi2]
  induction l with
  | nil => cases h1
  | cons a rest ih =>
    rw [shipShipPass]
    rcases List.mem_cons.mp h1 with he1 | hm1
    · have h2' : s2 ∈ rest := by
        rcases List.mem_cons.mp h2 with he2 | hm2
        · exfalso
          apply hne
          rw [he1, he2]
        · exact hm2
      subst he1
      rw [if_pos hok1]
      have hfil : s2 ∈ rest.filter (fun t => t.isAlive && !(decide (t.invulnTimer > 0)) &&
          circleCollision s1.position SHIP_RADIUS t.position SHIP_RADIUS) := by
        rw [List.mem_filter]
        refine ⟨h2', ?_⟩
        simp only [Bool.and_eq_true]
        refine ⟨?_, hc⟩
        simpa using hok2
      constructor
      · apply List.mem_append_left
        rw [List.mem_flatMap]
        exact ⟨s2, hfil, by simp⟩
      · apply List.mem_append_left
        rw [List.mem_flatMap]
        exact ⟨s2, hfil, by simp⟩
    · rcases List.mem_cons.mp h2 with he2 | hm2
      · subst he2
        rw [if_pos hok2]
        have hc' : circleCollision s2.position SHIP_RADIUS s1.position SHIP_RADIUS = true := by
          rw [circleCollision_symm]
          exact hc
        have hfil : s1 ∈ rest.filter (fun t => t.isAlive && !(decide (t.invulnTimer > 0)) &&
            circleCollision s2.position SHIP_RADIUS t.position SHIP_RADIUS) := by
          rw [List.mem_filter]
          refine ⟨hm1, ?_⟩
          simp only [Bool.and_eq_true]
          refine ⟨?_, hc'⟩
          simpa using hok1
        constructor
        · apply List.mem_append_left
          rw [List.mem_flatMap]
          exact ⟨s1, hfil, by simp⟩
        · apply List.mem_append_left
          rw [List.mem_flatMap]
          exact ⟨s1, hfil, by simp⟩
      · obtain ⟨r1, r2⟩ := ih hm1 hm2
        exact ⟨List.mem_append_right _ r1, List.mem_append_right _ r2⟩

/-! ### Split application preserves life status -/

set_option maxHeartbeats 800000 in
theorem spawnAsteroid_ships (mo : MathO) (rnd : Nat → ℚ) (st : RoomState)
    (size : AsteroidSize) (posn : Option Vec2) :
    (spawnAsteroid mo rnd st size posn).ships = st.ships := by
  cases posn with
  | some p =>
    simp only [spawnAsteroid, draw, generateId]
    split_ifs <;> rfl
  | none =>
    simp only [spawnAsteroid, draw, generateId]
    split_ifs <;> rfl

theorem splitAsteroid_allDead (mo : MathO) (rnd : Nat → ℚ) (st : RoomState)
    (a : Asteroid) (oid : String) (sid : String)
    (h : allDead st.ships sid = true) :
    allDead (splitAsteroid mo rnd st a oid).ships sid = true := by
  have hscore : ∀ (q : ℚ) (l : List Ship), allDead l sid = true →
      allDead (mapShip oid (fun s => { s with score := s.score + q }) l) sid = true := by
    intro q l hl
    exact allDead_mapShip _ _ _ _ (by intro s; rfl) (by intro s hh; simpa using hh) hl
  rw [splitAsteroid]
  cases a.size <;>
    simp only [spawnAsteroid_ships, spawnExplosion_ships] <;>
    exact hscore _ _ h

theorem splitAsteroid_allAlive (mo : MathO) (rnd : Nat → ℚ) (st : RoomState)
    (a : Asteroid) (oid : String) (sid : String)
    (h : allAlive st.ships sid = true) :
    allAlive (splitAsteroid mo rnd st a oid).ships sid = true := by
  have hscore : ∀ (q : ℚ) (l : List Ship), allAlive l sid = true →
      allAlive (mapShip oid (fun s => { s with score := s.score + q }) l) sid = true := by
    intro q l hl
    exact allAlive_mapShip_pres _ _ _ _ (by intro s; rfl) (by intro s; rfl) hl
  rw [splitAsteroid]
  cases a.size <;>
    simp only [spawnAsteroid_ships, spawnExplosion_ships] <;>
    exact hscore _ _ h

theorem splitsFold_allDead (mo : MathO) (rnd : Nat → ℚ)
    (hits : List (Bullet × Asteroid)) (st : RoomState) (sid : String)
    (h : allDead st.ships sid = true) :
    allDead (hits.foldl (fun acc e => splitAsteroid mo rnd acc e.2 e.1.ownerId) st).ships
      sid = true := by
  induction hits generalizing st with
  | nil => exact h
  | cons e rest ih =>
    exact ih _ (splitAsteroid_allDead mo rnd st e.2 e.1.ownerId sid h)

theorem splitsFold_allAlive (mo : MathO) (rnd : Nat → ℚ)
    (hits : List (Bullet × Asteroid)) (st : RoomState) (sid : String)
    (h : allAlive st.ships sid = true) :
    allAlive (hits.foldl (fun acc e => splitAsteroid mo rnd acc e.2 e.1.ownerId) st).ships
      sid = true := by
  induction hits generalizing st with
  | nil => exact h
  | cons e rest ih =>
    exact ih _ (splitAsteroid_allAlive mo rnd st e.2 e.1.ownerId sid h)

/-! ### C3 -/

/-- C3: a living ship whose invulnerability timer is strictly positive
at the start of collision resolution is still alive after
checkCollisions, whatever bullets, asteroids and other ships overlap
it. -/
theorem c3_invulnerable_ship_survives (mo : MathO) (rnd : Nat → ℚ) (st : RoomState)
    (hnd : (st.ships.map Ship.id).Nodup) (s : Ship) (hs : s ∈ st.ships)
    (hinv : 0 < s.invulnTimer) (halive : s.isAlive = true) :
    allAlive (checkCollisions mo rnd st).ships s.id = true := by
  have hA : allAlive st.ships s.id = true := by
    rw [allAlive_iff]
    intro t ht htid
    have : t = s := List.inj_on_of_nodup_map hnd ht hs htid
    rw [this]
    exact halive
  have contra : ∀ t : Ship, t ∈ st.ships → t.id = s.id → t.invulnTimer ≤ 0 → False := by
    intro t ht htid hti
    have : t = s := List.inj_on_of_nodup_map hnd ht hs htid
    rw [this] at hti
    exact absurd hinv (not_lt.mpr hti)
  have hnot : s.id ∉ (collisionKillList st).map Prod.fst := by
    intro hmem
    rw [collisionKillList] at hmem
    simp only [List.map_append, List.map_map, List.mem_append] at hmem
    rcases hmem with (hA1 | hA2) | hA3
    · rw [List.mem_map] at hA1
      obtain ⟨e, he, hid⟩ := hA1
      simp only [Function.comp] at hid
      obtain ⟨htmem, _, hinv', _⟩ :=
        bulletShipPass_mem st.ships st.bullets _ e.1 e.2 he
      exact contra e.2 htmem hid hinv'
    · rw [List.mem_map] at hA2
      obtain ⟨i, hi, hid⟩ := hA2
      simp only [Function.comp] at hid
      obtain ⟨t, ht, htid, _, hti⟩ := shipAsteroidPass_mem st.asteroids st.ships i hi
      exact contra t ht (by rw [htid, hid]) hti
    · rw [List.mem_map] at hA3
      obtain ⟨i, hi, hid⟩ := hA3
      simp only [Function.comp] at hid
      obtain ⟨t, ht, htid, _, hti⟩ := shipShipPass_mem st.ships i hi
      exact contra t ht (by rw [htid, hid]) hti
  simp only [checkCollisions]
  refine splitsFold_allAlive _ _ _ _ _ ?_
  exact killsGo_allAlive_not_target _ _ _ _ hnot hA

/-- Witness for c3_invulnerable_ship_survives: invulnerable ship A
survives the tick although an enemy bullet sits on it and ship B
overlaps it. -/
theorem c3_invulnerable_ship_survives_witness :
    allAlive (checkCollisions mo0 rnd0 c3St).ships
      ({ mkShip "A" ⟨100, 100⟩ with invulnTimer := 2 } : Ship).id = true :=
  c3_invulnerable_ship_survives mo0 rnd0 c3St (by decide)
    { mkShip "A" ⟨100, 100⟩ with invulnTimer := 2 } (by decide)
    (by norm_num [mkShip]) (by decide)

/-! ### C4 -/

/-- C4: two distinct living, non-invulnerable overlapping ships are
both dead after the tick's collision resolution — never exactly one,
whatever bullet or asteroid kills are scheduled for them in the same
tick (the kill application deduplicates by ship id). -/
theorem c4_mutual_ram_destruction (mo : MathO) (rnd : Nat → ℚ) (st : RoomState)
    (hnd : (st.ships.map Ship.id).Nodup) (s1 s2 : Ship)
    (h1 : s1 ∈ st.ships) (h2 : s2 ∈ st.ships) (hne : s1.id ≠ s2.id)
    (ha1 : s1.isAlive = true) (ha2 : s2.isAlive = true)
    (hi1 : s1.invulnTimer ≤ 0) (hi2 : s2.invulnTimer ≤ 0)
    (hc : circleCollision s1.position SHIP_RADIUS s2.position SHIP_RADIUS = true) :
    allDead (checkCollisions mo rnd st).ships s1.id = true ∧
    allDead (checkCollisions mo rnd st).ships s2.id = true := by
  obtain ⟨m1, m2⟩ := shipShipPass_both st.ships s1 s2 h1 h2 hne ha1 ha2 hi1 hi2 hc
  have key : ∀ i : String, i ∈ shipShipPass st.ships →
      allDead (checkCollisions mo rnd st).ships i = true := by
    intro i hi
    have hmem : i ∈ (collisionKillList st).map Prod.fst := by
      rw [collisionKillList]
      simp only [List.map_append, List.map_map, List.mem_append]
      right
      have hmapid : List.map (Prod.fst ∘ fun i : String => (i, (none : Option String)))
          (shipShipPass st.ships) = shipShipPass st.ships := by
        have : (Prod.fst ∘ fun i : String => (i, (none : Option String))) = fun i => i := by
          funext i
          rfl
        rw [this, List.map_id']
      rw [hmapid]
      exact hi
    simp only [checkCollisions]
    refine splitsFold_allDead _ _ _ _ _ ?_
    exact killsGo_kills_target _ _ _ _ hmem hnd (by intro x hx; cases hx)
  exact ⟨key s1.id m1, key s2.id m2⟩

/-- Witness for c4_mutual_ram_destruction: two overlapping live ships
both die. -/
theorem c4_mutual_ram_destruction_witness :
    allDead (checkCollisions mo0 rnd0 ramSt).ships "A" = true ∧
    allDead (checkCollisions mo0 rnd0 ramSt).ships "B" = true :=
  c4_mutual_ram_destruction mo0 rnd0 ramSt (by decide)
    (mkShip "A" ⟨100, 100⟩) (mkShip "B" ⟨105, 100⟩) (by decide) (by decide)
    (by decide) (by decide) (by decide)
    (by norm_num [mkShip]) (by norm_num [mkShip])
    (by simp only [circleCollision, mkShip, SHIP_RADIUS, decide_eq_true_eq]; norm_num)

/-! ### C10 -/

theorem bulletAsteroidPass_sub (asteroids : List Asteroid) (bullets : List Bullet)
    (consumed : List String) (e : Bullet × Asteroid)
    (h : e ∈ bulletAsteroidPass asteroids bullets consumed) :
    e.1 ∈ bullets ∧ e.1.id ∉ consumed := by
  induction bullets generalizing consumed with
  | nil => simp [bulletAsteroidPass] at h
  | cons b0 rest ih =>
    by_cases hc : consumed.contains b0.id = true
    · rw [bulletAsteroidPass, if_pos hc] at h
      obtain ⟨hm, hn⟩ := ih _ h
      exact ⟨List.mem_cons_of_mem _ hm, hn⟩
    · rw [bulletAsteroidPass, if_neg hc] at h
      cases hfind : asteroids.find? (fun a =>
          circleCollision b0.position BULLET_RADIUS a.position a.radius) with
      | none =>
        rw [hfind] at h
        obtain ⟨hm, hn⟩ := ih _ h
        exact ⟨List.mem_cons_of_mem _ hm, hn⟩
      | some a =>
        rw [hfind] at h
        rcases List.mem_cons.mp h with hEq | hmem
        · constructor
          · rw [hEq]
            exact List.mem_cons_self _ _
          · rw [hEq]
            intro hin
            exact absurd (List.elem_eq_true_of_mem hin) (by simpa using hc)
        · obtain ⟨hm, hn⟩ := ih _ hmem
          refine ⟨List.mem_cons_of_mem _ hm, fun hin => hn (List.mem_append_left _ hin)⟩

theorem bulletShipPass_sub (ships : List Ship) (bullets : List Bullet)
    (consumed : List String) (e : Bullet × Ship)
    (h : e ∈ bulletShipPass ships bullets consumed) :
    e.1 ∈ bullets ∧ e.1.id ∉ consumed := by
  induction bullets generalizing consumed with
  | nil => simp [bulletShipPass] at h
  | cons b0 rest ih =>
    by_cases hc : consumed.contains b0.id = true
    · rw [bulletShipPass, if_pos hc] at h
      obtain ⟨hm, hn⟩ := ih _ h
      exact ⟨List.mem_cons_of_mem _ hm, hn⟩
    · rw [bulletShipPass, if_neg hc] at h
      cases hfind : ships.find? (fun s =>
          !(s.id == b0.ownerId) && s.isAlive && !(decide (s.invulnTimer > 0)) &&
          circleCollision b0.position BULLET_RADIUS s.position SHIP_RADIUS) with
      | none =>
        rw [hfind] at h
        obtain ⟨hm, hn⟩ := ih _ h
        exact ⟨List.mem_cons_of_mem _ hm, hn⟩
      | some s =>
        rw [hfind] at h
        rcases List.mem_cons.mp h with hEq | hmem
        · constructor
          · rw [hEq]
            exact List.mem_cons_self _ _
          · rw [hEq]
            intro hin
            exact absurd (List.elem_eq_true_of_mem hin) (by simpa using hc)
        · obtain ⟨hm, hn⟩ := ih _ hmem
          refine ⟨List.mem_cons_of_mem _ hm, fun hin => hn (List.mem_append_left _ hin)⟩

theorem bulletAsteroidPass_ids_nodup (asteroids : List Asteroid)
    (bullets : List Bullet) (hnd : (bullets.map Bullet.id).Nodup)
    (consumed : List String) :
    ((bulletAsteroidPass asteroids bullets consumed).map (fun e => e.1.id)).Nodup := by
  induction bullets generalizing consumed with
  | nil => simp [bulletAsteroidPass]
  | cons b0 rest ih =>
    simp only [List.map_cons, List.nodup_cons] at hnd
    by_cases hc : consumed.contains b0.id = true
    · rw [bulletAsteroidPass, if_pos hc]
      exact ih hnd.2 _
    · rw [bulletAsteroidPass, if_neg hc]
      cases hfind : asteroids.find? (fun a =>
          circleCollision b0.position BULLET_RADIUS a.position a.radius) with
      | none => exact ih hnd.2 _
      | some a =>
        simp only [List.map_cons, List.nodup_cons]
        refine ⟨?_, ih hnd.2 _⟩
        intro hin
        rw [List.mem_map] at hin
        obtain ⟨e, he, hid⟩ := hin
        have := (bulletAsteroidPass_sub asteroids rest _ e he).1
        exact hnd.1 (by rw [← hid]; exact List.mem_map_of_mem _ this)

theorem bulletShipPass_ids_nodup (ships : List Ship)
    (bullets : List Bullet) (hnd : (bullets.map Bullet.id).Nodup)
    (consumed : List String) :
    ((bulletShipPass ships bullets consumed).map (fun e => e.1.id)).Nodup := by
  induction bullets generalizing consumed with
  | nil => simp [bulletShipPass]
  | cons b0 rest ih =>
    simp only [List.map_cons, List.nodup_cons] at hnd
    by_cases hc : consumed.contains b0.id = true
    · rw [bulletShipPass, if_pos hc]
      exact ih hnd.2 _
    · rw [bulletShipPass, if_neg hc]
      cases hfind : ships.find? (fun s =>
          !(s.id == b0.ownerId) && s.isAlive && !(decide (s.invulnTimer > 0)) &&
          circleCollision b0.position BULLET_RADIUS s.position SHIP_RADIUS) with
      | none => exact ih hnd.2 _
      | some s =>
        simp only [List.map_cons, List.nodup_cons]
        refine ⟨?_, ih hnd.2 _⟩
        intro hin
        rw [List.mem_map] at hin
        obtain ⟨e, he, hid⟩ := hin
        have := (bulletShipPass_sub ships rest _ e he).1
        exact hnd.1 (by rw [← hid]; exact List.mem_map_of_mem _ this)

/-- C10: within one tick's collision resolution every bullet is
consumed at most once: the combined per-bullet destruction events of
the Bullet x Asteroid pass and the Bullet x Ship pass name each bullet
id at most once (each pass stops at a bullet's first hit, and the ship
pass skips every bullet the asteroid pass consumed). -/
theorem c10_bullet_single_consumption (st : RoomState)
    (hnd : (st.bullets.map Bullet.id).Nodup) :
    (((collisionHitsA st).map (fun e => e.1.id)) ++
     ((collisionHitsS st).map (fun e => e.1.id))).Nodup := by
  rw [List.nodup_append]
  refine ⟨bulletAsteroidPass_ids_nodup _ _ hnd _, bulletShipPass_ids_nodup _ _ hnd _, ?_⟩
  intro a ha hb
  rw [List.mem_map] at hb
  obtain ⟨e, he, hid⟩ := hb
  have hn := (bulletShipPass_sub st.ships st.bullets _ e he).2
  exact hn (by rw [hid]; exact ha)

/-- Witness for c10_bullet_single_consumption on a concrete room with
two distinct bullets. -/
theorem c10_bullet_single_consumption_witness :
    (((collisionHitsA c5St).map (fun e => e.1.id)) ++
     ((collisionHitsS c5St).map (fun e => e.1.id))).Nodup :=
  c10_bullet_single_consumption c5St (by decide)

/-! ### Field-preservation lemmas across a tick (for C8) -/

theorem spawnAsteroid_gameMode (mo : MathO) (rnd : Nat → ℚ) (st : RoomState)
    (size : AsteroidSize) (posn : Option Vec2) :
    (spawnAsteroid mo rnd st size posn).gameMode = st.gameMode := by
  cases posn with
  | some p =>
    simp only [spawnAsteroid, draw, generateId]
    split_ifs <;> rfl
  | none =>
    simp only [spawnAsteroid, draw, generateId]
    split_ifs <;> rfl

theorem splitAsteroid_gameMode (mo : MathO) (rnd : Nat → ℚ) (st : RoomState)
    (a : Asteroid) (oid : String) :
    (splitAsteroid mo rnd st a oid).gameMode = st.gameMode := by
  rw [splitAsteroid]
  cases a.size <;> simp only [spawnAsteroid_gameMode] <;> rfl

theorem killShip_gameMode (st : RoomState) (v : Ship) (k : Option String) :
    (killShip st v k).gameMode = st.gameMode := by
  cases k with
  | none => rfl
  | some kid =>
    by_cases hk : kid ≠ v.id
    · simp only [killShip, if_pos hk]
      rfl
    · simp only [killShip, if_neg hk]
      rfl

theorem killsGo_gameMode (l : List (String × Option String)) (killed : List String)
    (st : RoomState) : (killsGo l killed st).gameMode = st.gameMode := by
  induction l generalizing killed st with
  | nil => rfl
  | cons e rest ih =>
    obtain ⟨hid, k⟩ := e
    cases hfind : findShip st.ships hid with
    | none =>
      simp only [killsGo, hfind]
      exact ih killed st
    | some s =>
      simp only [killsGo, hfind]
      by_cases hskip : (killed.contains hid || !s.isAlive) = true
      · rw [if_pos hskip]
        exact ih killed st
      · rw [if_neg hskip]
        rw [ih _ _, killShip_gameMode]

theorem checkCollisions_gameMode (mo : MathO) (rnd : Nat → ℚ) (st : RoomState) :
    (checkCollisions mo rnd st).gameMode = st.gameMode := by
  simp only [checkCollisions]
  have hfold : ∀ (hits : List (Bullet × Asteroid)) (st0 : RoomState),
      (hits.foldl (fun acc e => splitAsteroid mo rnd acc e.2 e.1.ownerId) st0).gameMode
        = st0.gameMode := by
    intro hits
    induction hits with
    | nil => intro st0; rfl
    | cons e rest ih =>
      intro st0
      rw [List.foldl_cons, ih, splitAsteroid_gameMode]
  rw [hfold, killsGo_gameMode]
  rfl

theorem asteroidsPhase_gameMode (mo : MathO) (rnd : Nat → ℚ) (dt : ℚ) (st : RoomState) :
    (asteroidsPhase mo rnd dt st).gameMode = st.gameMode := by
  simp only [asteroidsPhase]
  split_ifs <;> simp [spawnAsteroid_gameMode]

theorem asteroidsPhase_ships (mo : MathO) (rnd : Nat → ℚ) (dt : ℚ) (st : RoomState) :
    (asteroidsPhase mo rnd dt st).ships = st.ships := by
  simp only [asteroidsPhase]
  split_ifs <;> simp [spawnAsteroid_ships]

theorem fireBullet_ships (mo : MathO) (st : RoomState) (ship : Ship) :
    (fireBullet mo st ship).ships = st.ships := rfl

theorem fireBullet_gameMode (mo : MathO) (st : RoomState) (ship : Ship) :
    (fireBullet mo st ship).gameMode = st.gameMode := rfl

theorem aiGetState_gameMode (rnd : Nat → ℚ) (st : RoomState) (aiId : String) :
    (aiGetState rnd st aiId).2.gameMode = st.gameMode := by
  rw [aiGetState]
  split <;> rfl

theorem aiThink_gameMode (rnd : Nat → ℚ) (st : RoomState) (aiId : String)
    (ship : Ship) (state1 : AiState) :
    (aiThink rnd st aiId ship state1).2.gameMode = st.gameMode := by
  simp only [aiThink, draw]
  repeat' split
  all_goals rfl

theorem aiDesiredAngle_gameMode (mo : MathO) (rnd : Nat → ℚ) (st : RoomState)
    (ship : Ship) (state2 : AiState) (targetOpt : Option Ship) :
    (aiDesiredAngle mo rnd st ship state2 targetOpt).2.gameMode = st.gameMode := by
  simp only [aiDesiredAngle, draw]
  repeat' split
  all_goals rfl

theorem aiStepShip_gameMode (mo : MathO) (rnd : Nat → ℚ) (dt : ℚ) (st : RoomState)
    (aiId : String) : (aiStepShip mo rnd dt st aiId).gameMode = st.gameMode := by
  simp only [aiStepShip]
  split
  · rfl
  · split_ifs with halive
    all_goals try rfl
    all_goals split <;>
      simp [fireBullet, draw, generateId, aiDesiredAngle_gameMode, aiThink_gameMode,
        aiGetState_gameMode]

theorem updateAI_gameMode (mo : MathO) (rnd : Nat → ℚ) (dt : ℚ) (st : RoomState) :
    (updateAI mo rnd dt st).gameMode = st.gameMode := by
  rw [updateAI]
  have key : ∀ (ids : List String) (st0 : RoomState),
      (ids.foldl (aiStepShip mo rnd dt) st0).gameMode = st0.gameMode := by
    intro ids
    induction ids with
    | nil => intro st0; rfl
    | cons i rest ih =>
      intro st0
      rw [List.foldl_cons, ih, aiStepShip_gameMode]
  exact key _ _

theorem mapShip_ids_of (tid : String) (f : Ship → Ship) (l : List Ship)
    (hid : ∀ s ∈ l, s.id = tid → (f s).id = s.id) :
    (mapShip tid f l).map Ship.id = l.map Ship.id := by
  induction l with
  | nil => rfl
  | cons a l ih =>
    simp only [mapShip, List.map_cons] at *
    rw [ih (fun s hs h => hid s (List.mem_cons_of_mem a hs) h)]
    congr 1
    by_cases hc : (a.id == tid) = true
    · rw [if_pos hc]
      exact hid a (List.mem_cons_self a l) (beq_iff_eq.mp hc)
    · rw [if_neg hc]

theorem allDead_mapShip_ne (tid : String) (f : Ship → Ship) (l : List Ship)
    (sid : String) (hne : sid ≠ tid)
    (hfid : ∀ s, s.id = tid → (f s).id = tid)
    (h : allDead l sid = true) : allDead (mapShip tid f l) sid = true := by
  rw [allDead_iff] at h ⊢
  intro s hs hsid
  simp only [mapShip, List.mem_map] at hs
  obtain ⟨t, ht, rfl⟩ := hs
  by_cases hc : (t.id == tid) = true
  · exfalso
    rw [if_pos hc] at hsid
    rw [hfid t (beq_iff_eq.mp hc)] at hsid
    exact hne hsid.symm
  · rw [if_neg hc] at hsid ⊢
    exact h t ht hsid

theorem aiGetState_ships (rnd : Nat → ℚ) (st : RoomState) (aiId : String) :
    (aiGetState rnd st aiId).2.ships = st.ships := by
  rw [aiGetState]
  split <;> rfl

theorem aiThink_ships (rnd : Nat → ℚ) (st : RoomState) (aiId : String)
    (ship : Ship) (state1 : AiState) :
    (aiThink rnd st aiId ship state1).2.ships = st.ships := by
  simp only [aiThink, draw]
  repeat' split
  all_goals rfl

theorem aiDesiredAngle_ships (mo : MathO) (rnd : Nat → ℚ) (st : RoomState)
    (ship : Ship) (state2 : AiState) (targetOpt : Option Ship) :
    (aiDesiredAngle mo rnd st ship state2 targetOpt).2.ships = st.ships := by
  simp only [aiDesiredAngle, draw]
  repeat' split
  all_goals rfl

theorem aiStepShip_ids (mo : MathO) (rnd : Nat → ℚ) (dt : ℚ) (st : RoomState)
    (aiId : String) :
    (aiStepShip mo rnd dt st aiId).ships.map Ship.id = st.ships.map Ship.id := by
  simp only [aiStepShip]
  split
  · rfl
  next ship heq =>
    have hsid : ship.id = aiId := by simpa using List.find?_some heq
    have hconst : ∀ (l : List Ship) (s1 : Ship), s1.id = aiId →
        (mapShip aiId (fun _ => s1) l).map Ship.id = l.map Ship.id := by
      intro l s1 h1
      refine mapShip_ids_of _ _ _ ?_
      intro s _ hs
      rw [h1, hs]
    have hcool : ∀ l : List Ship,
        (mapShip aiId (fun s =>
          { s with fireCooldown := FIRE_COOLDOWN * (3 / 2) }) l).map Ship.id
          = l.map Ship.id := by
      intro l
      exact mapShip_ids _ _ _ (by intro s; rfl)
    split_ifs with halive
    all_goals try rfl
    all_goals split
    all_goals
      simp [fireBullet_ships, draw, aiDesiredAngle_ships, aiThink_ships, aiGetState_ships,
        hcool, hconst, hsid]

theorem aiStepShip_allDead (mo : MathO) (rnd : Nat → ℚ) (dt : ℚ) (st : RoomState)
    (aiId : String) (sid : String)
    (h : allDead st.ships sid = true) :
    allDead (aiStepShip mo rnd dt st aiId).ships sid = true := by
  simp only [aiStepShip]
  split
  · exact h
  next ship heq =>
    have hsid : ship.id = aiId := by simpa using List.find?_some heq
    have hshipmem : ship ∈ st.ships := List.mem_of_find?_eq_some heq
    split_ifs with halive
    all_goals try exact h
    all_goals
      by_cases hcase : sid = aiId
      · exfalso
        have : ship.isAlive = false := (allDead_iff _ _).mp h ship hshipmem (by rw [hsid, hcase])
        rw [halive] at this
        cases this
      · have hstep : ∀ (l : List Ship) (s1 : Ship), s1.id = aiId →
            allDead l sid = true → allDead (mapShip aiId (fun _ => s1) l) sid = true := by
          intro l s1 h1 hl
          refine allDead_mapShip_ne _ _ _ _ hcase ?_ hl
          intro s _
          exact h1
        have hstep2 : ∀ l : List Ship, allDead l sid = true →
            allDead (mapShip aiId (fun s =>
              { s with fireCooldown := FIRE_COOLDOWN * (3 / 2) }) l) sid = true := by
          intro l hl
          exact allDead_mapShip _ _ _ _ (by intro s; rfl) (by intro s hh; simpa using hh) hl
        split
        all_goals
          simp only [fireBullet_ships, draw]
          first
            | (refine hstep2 _ (hstep _ _ ?_ ?_)
               · exact hsid
               · simpa [aiDesiredAngle_ships, aiThink_ships, aiGetState_ships] using h)
            | (refine hstep _ _ ?_ ?_
               · exact hsid
               · simpa [aiDesiredAngle_ships, aiThink_ships, aiGetState_ships] using h)

theorem updateAI_allDead (mo : MathO) (rnd : Nat → ℚ) (dt : ℚ) (st : RoomState)
    (sid : String) (h : allDead st.ships sid = true) :
    allDead (updateAI mo rnd dt st).ships sid = true := by
  rw [updateAI]
  have key : ∀ (ids : List String) (st0 : RoomState), allDead st0.ships sid = true →
      allDead ((ids.foldl (aiStepShip mo rnd dt) st0).ships) sid = true := by
    intro ids
    induction ids with
    | nil => intro st0 h0; exact h0
    | cons i rest ih =>
      intro st0 h0
      rw [List.foldl_cons]
      exact ih _ (aiStepShip_allDead mo rnd dt st0 i sid h0)
  exact key _ _ h

theorem shipStep_knockout_id (mo : MathO) (rnd : Nat → ℚ) (dt : ℚ) (s : Ship) (ri : Nat) :
    (shipStep mo rnd GameMode.knockout dt s ri).1.id = s.id := by
  simp only [shipStep]
  split_ifs <;> rfl

theorem shipStep_knockout_isAlive (mo : MathO) (rnd : Nat → ℚ) (dt : ℚ) (s : Ship) (ri : Nat) :
    (shipStep mo rnd GameMode.knockout dt s ri).1.isAlive = s.isAlive := by
  simp only [shipStep]
  split_ifs <;> rfl

theorem shipsPhase_knockout_allDead (mo : MathO) (rnd : Nat → ℚ) (dt : ℚ)
    (l : List Ship) (ri : Nat) (sid : String) (h : allDead l sid = true) :
    allDead (shipsPhase mo rnd GameMode.knockout dt l ri).1 sid = true := by
  induction l generalizing ri with
  | nil => exact h
  | cons s rest ih =>
    simp only [shipsPhase, allDead, List.all_cons, Bool.and_eq_true] at h ⊢
    obtain ⟨h1, h2⟩ := h
    refine ⟨?_, ih _ h2⟩
    rw [shipStep_knockout_id, shipStep_knockout_isAlive]
    exact h1

theorem checkCollisions_allDead (mo : MathO) (rnd : Nat → ℚ) (st : RoomState)
    (sid : String) (h : allDead st.ships sid = true) :
    allDead (checkCollisions mo rnd st).ships sid = true := by
  simp only [checkCollisions]
  refine splitsFold_allDead _ _ _ _ _ ?_
  exact killsGo_allDead_mono _ _ _ _ h

theorem updateCore_gameMode (mo : MathO) (rnd : Nat → ℚ) (dt : ℚ) (st : RoomState) :
    (updateCore mo rnd dt st).gameMode = st.gameMode := by
  simp only [updateCore]
  rw [checkCollisions_gameMode, updateAI_gameMode]
  simp [asteroidsPhase_gameMode]

theorem update_gameMode (mo : MathO) (rnd : Nat → ℚ) (dt : ℚ) (st : RoomState) :
    (update mo rnd dt st).gameMode = st.gameMode := by
  simp only [update]
  split_ifs <;> simp [updateCore_gameMode]

theorem updateCore_knockout_allDead (mo : MathO) (rnd : Nat → ℚ) (dt : ℚ)
    (st : RoomState) (sid : String) (hm : st.gameMode = GameMode.knockout)
    (h : allDead st.ships sid = true) :
    allDead (updateCore mo rnd dt st).ships sid = true := by
  simp only [updateCore]
  refine checkCollisions_allDead _ _ _ _ ?_
  refine updateAI_allDead _ _ _ _ _ ?_
  have hsp : allDead (shipsPhase mo rnd st.gameMode dt st.ships st.randIdx).1 sid = true := by
    rw [hm]
    exact shipsPhase_knockout_allDead mo rnd dt st.ships st.randIdx sid h
  have hast : ∀ st0 : RoomState, allDead st0.ships sid = true →
      allDead (asteroidsPhase mo rnd dt st0).ships sid = true := by
    intro st0 h0
    rw [asteroidsPhase_ships]
    exact h0
  exact hast _ hsp

theorem update_knockout_step (mo : MathO) (rnd : Nat → ℚ) (dt : ℚ) (st : RoomState)
    (sid : String) (hm : st.gameMode = GameMode.knockout)
    (h : allDead st.ships sid = true) :
    allDead (update mo rnd dt st).ships sid = true := by
  simp only [update]
  split_ifs with hphase hko htimer halive
  · exact absurd hm hko
  · exact absurd hm hko
  · exact h
  · exact updateCore_knockout_allDead mo rnd dt _ sid hm h
  · exact h

/-! ### C8 -/

/-- C8: in knockout mode a dead ship never comes back: across any
sequence of update calls starting from a knockout room in which every
ship entry with the given id is dead, every such entry is still dead
at the end. -/
theorem c8_knockout_dead_stays_dead (mo : MathO) (rnd : Nat → ℚ) (dts : List ℚ)
    (st : RoomState) (hm : st.gameMode = GameMode.knockout) (sid : String)
    (h : allDead st.ships sid = true) :
    allDead (dts.foldl (fun acc d => update mo rnd d acc) st).ships sid = true := by
  induction dts generalizing st with
  | nil => exact h
  | cons d rest ih =>
    rw [List.foldl_cons]
    refine ih _ ?_ ?_
    · rw [update_gameMode]
      exact hm
    · exact update_knockout_step mo rnd d st sid hm h

/-- Witness for c8_knockout_dead_stays_dead: dead ship B of a concrete
knockout room stays dead over two ticks. -/
theorem c8_knockout_dead_stays_dead_witness :
    allDead (([(1 : ℚ) / 60, 1 / 60]).foldl
      (fun acc d => update mo0 rnd0 d acc) c8St).ships "B" = true :=
  c8_knockout_dead_stays_dead mo0 rnd0 [1 / 60, 1 / 60] c8St (by decide) "B" (by decide)

end GameZero
